import Mathlib

/-! Buffer pool manager (package `storage`), shallow embedding.

The Go package keeps its frames as an array of `*Page`.  Pointers matter here:
`InsertPage` stores the caller's pointer, and `Pin`/`Unpin` write through the
pointer found in a frame.  The embedding therefore carries the part of the Go
heap that holds `Page` objects: an address is a natural number, `heap` gives
the object stored at an address and `brk` is the next address the allocator
hands out.  A `nil` pointer is `none`.

The Go types `PageID` (`int64`) and `FrameID` (`int`) are both `Int`; no
arithmetic is done on either, so no wrap-around is involved.  An address is a
`Nat`.

A Go run-time panic (index out of range, nil dereference) is the outcome
`none` of an operation; a normal return is `some (state, results)`.
-/

namespace storage

/-- Go constant `const MaxPoolSize = 50`. -/
def MaxPoolSize : Nat := 50

/-- Go type `Page`, a struct with fields `ID`, `Data`, `IsDirty`, `IsPinned`. -/
structure Page where
  ID : Int
  Data : List (List Nat)
  IsDirty : Bool
  IsPinned : Bool
deriving DecidableEq, Repr

/-- Go type `DiskReq`, as far as the buffer pool builds it: a page value and an
operation name. -/
structure DiskReq where
  Page : Page
  Operation : String
deriving DecidableEq, Repr

/-- Go type `BufferPoolManager`, together with the heap of `Page` objects
its frames point into.

* `pages`, `freeList`, `pageTable` are the three fields of the Go struct;
  `pageTable` is an initialised map, as `NewBufferPoolManager` makes it.
* `replacer` stands for `*LRUKReplacer`, whose body is not part of the source:
  only the sequence of frames passed to `RecordAccess` is kept.
* `diskManager` stands for `DiskManager.Scheduler`, whose body is not part of
  the source: only the sequence of requests passed to `AddReq` is kept. -/
structure BufferPoolManager where
  heap : Nat → Page
  brk : Nat
  pages : Fin MaxPoolSize → Option Nat
  freeList : List Int
  pageTable : Int → Option Int
  replacer : List Int
  diskManager : List DiskReq

/-- Bounds check of `bpm.pages[frameID]`: the array slot, or `none` when the
index is outside `[0, MaxPoolSize)` and Go panics. -/
def frameIndex (frameID : Int) : Option (Fin MaxPoolSize) :=
  if h : 0 ≤ frameID ∧ frameID < (MaxPoolSize : Int) then
    some ⟨frameID.toNat, by
      have h1 : 0 ≤ frameID := h.1
      have h2 : frameID < 50 := h.2
      show frameID.toNat < 50
      omega⟩
  else none

/-- The zero value of `Page` (`var page Page`). -/
def zeroPage : Page := { ID := 0, Data := [], IsDirty := false, IsPinned := false }

/-- Allocation of a new `Page` object (a `&Page` composite literal): the object is stored at
address `brk`, which is returned. -/
def allocPage (bpm : BufferPoolManager) (p : Page) : BufferPoolManager × Nat :=
  ({ bpm with heap := Function.update bpm.heap bpm.brk p, brk := bpm.brk + 1 }, bpm.brk)

/-- Go function `func (bpm *BufferPoolManager) InsertPage(page *Page) bool`. -/
def InsertPage (bpm : BufferPoolManager) (page : Option Nat) :
    Option (BufferPoolManager × Bool) :=
  match bpm.freeList with
  | [] => some (bpm, false)
  | frameID :: rest =>
    match frameIndex frameID with
    | none => none
    | some i =>
      match page with
      | none => none
      | some a =>
        some ({ bpm with
                freeList := rest
                pages := Function.update bpm.pages i (some a)
                pageTable := Function.update bpm.pageTable (bpm.heap a).ID (some frameID) },
              true)

/-- Go function `func (bpm *BufferPoolManager) CreateAndInsertPage(data [][]byte, ID PageID) error`. -/
def CreateAndInsertPage (bpm : BufferPoolManager) (data : List (List Nat)) (ID : Int) :
    Option (BufferPoolManager × Option String) :=
  let (bpm1, page) := allocPage bpm { ID := ID, Data := data, IsDirty := false, IsPinned := false }
  match InsertPage bpm1 (some page) with
  | none => none
  | some (bpm2, isAdded) =>
    if !isAdded then some (bpm2, some "unable to add page to buffer pool")
    else some (bpm2, none)

/-- Go function `func (bpm *BufferPoolManager) DeletePage(pageID PageID) (FrameID, error)`. -/
def DeletePage (bpm : BufferPoolManager) (pageID : Int) :
    Option (BufferPoolManager × Int × Option String) :=
  match bpm.pageTable pageID with
  | some frameID =>
    match frameIndex frameID with
    | none => none
    | some i =>
      match bpm.pages i with
      | none => none
      | some page =>
        if (bpm.heap page).IsPinned then
          some (bpm, 0, some "Page is pinned, cannot delete")
        else
          some ({ bpm with
                  pageTable := Function.update bpm.pageTable pageID none
                  pages := Function.update bpm.pages i none
                  freeList := bpm.freeList ++ [frameID] },
                frameID, none)
  | none => some (bpm, 0, some "Page not found")

/-- Go function `func (bpm *BufferPoolManager) Pin(pageID PageID) error`. -/
def Pin (bpm : BufferPoolManager) (pageID : Int) :
    Option (BufferPoolManager × Option String) :=
  match bpm.pageTable pageID with
  | some frameID =>
    match frameIndex frameID with
    | none => none
    | some i =>
      match bpm.pages i with
      | none => none
      | some page =>
        some ({ bpm with
                heap := Function.update bpm.heap page { bpm.heap page with IsPinned := true }
                replacer := bpm.replacer ++ [frameID] },
              none)
  | none => some (bpm, some "Page Not Found")

/-- Go function `func (bpm *BufferPoolManager) Unpin(pageID PageID, isDirty bool) error`. -/
def Unpin (bpm : BufferPoolManager) (pageID : Int) (isDirty : Bool) :
    Option (BufferPoolManager × Option String) :=
  match bpm.pageTable pageID with
  | some frameID =>
    match frameIndex frameID with
    | none => none
    | some i =>
      match bpm.pages i with
      | none => none
      | some page =>
        some ({ bpm with
                heap := Function.update bpm.heap page
                  { bpm.heap page with IsDirty := isDirty, IsPinned := false } },
              none)
  | none => some (bpm, some "Page Not Found")

/-- Go function `func (bpm *BufferPoolManager) FetchPage(pageID PageID) (*Page, error)`.
The returned `*Page` points to a private copy; it is given by its value, and
`none` is the `nil` pointer. -/
def FetchPage (bpm : BufferPoolManager) (pageID : Int) :
    Option (BufferPoolManager × Option Page × Option String) :=
  match bpm.pageTable pageID with
  | some frameID =>
    match frameIndex frameID with
    | none => none
    | some i =>
      match bpm.pages i with
      | none => none
      | some a =>
        let page := bpm.heap a
        if page.IsPinned then
          some (bpm, none, some "Page is pinned, cannot access")
        else
          match Pin bpm pageID with
          | none => none
          | some (bpm1, _) => some (bpm1, some page, none)
  | none =>
    let page := zeroPage
    some ({ bpm with diskManager := bpm.diskManager ++ [{ Page := page, Operation := "READ" }] },
          some page, none)

/-- Loop of `NewBufferPoolManager`: after `i` rounds the free list holds
`FrameID(0) .. FrameID(i-1)` and the visited slots are `nil`. -/
def initFrames : Nat → List Int × (Fin MaxPoolSize → Option Nat)
  | 0 => ([], fun _ => none)
  | i + 1 =>
    let (freeList, pages) := initFrames i
    (freeList ++ [(i : Int)],
     fun j => if j.val = i then none else pages j)

/-- Go function `func NewBufferPoolManager(diskManager DiskManager) *BufferPoolManager`.
`heap` and `brk` are the `Page` objects that exist when the pool is made. -/
def NewBufferPoolManager (heap : Nat → Page) (brk : Nat) (diskManager : List DiskReq) :
    BufferPoolManager :=
  { heap := heap
    brk := brk
    pages := (initFrames MaxPoolSize).2
    freeList := (initFrames MaxPoolSize).1
    pageTable := fun _ => none
    replacer := []
    diskManager := diskManager }

/-- The page a frame holds: `*bpm.pages[frameID]`, when the index is in range
and the slot is not `nil`. -/
def pageAt (bpm : BufferPoolManager) (frameID : Int) : Option Page :=
  match frameIndex frameID with
  | none => none
  | some i =>
    match bpm.pages i with
    | none => none
    | some a => some (bpm.heap a)

/-- The resident page of a PageID: `*bpm.pages[bpm.pageTable[pageID]]`. -/
def residentPage (bpm : BufferPoolManager) (pageID : Int) : Option Page :=
  match bpm.pageTable pageID with
  | none => none
  | some frameID => pageAt bpm frameID

/-- States reachable from `NewBufferPoolManager` through `InsertPage`,
`CreateAndInsertPage`, `DeletePage`, `FetchPage`, `Unpin` and `Pin`.
`InsertPage` receives a non-nil pointer to an existing `Page` object, and
`alloc` is the caller making such an object (a `&Page` composite literal).  Only these
operations write to `Page` objects: the caller does not write to an object it
has handed to the pool.  A call that panics yields no state. -/
inductive Reachable : BufferPoolManager → Prop
  | init (heap : Nat → Page) (brk : Nat) (dm : List DiskReq) :
      Reachable (NewBufferPoolManager heap brk dm)
  | alloc (s : BufferPoolManager) (p : Page) :
      Reachable s → Reachable (allocPage s p).1
  | insertPage (s s' : BufferPoolManager) (a : Nat) (r : Bool) :
      Reachable s → a < s.brk → InsertPage s (some a) = some (s', r) → Reachable s'
  | createAndInsertPage (s s' : BufferPoolManager) (data : List (List Nat)) (ID : Int)
      (e : Option String) :
      Reachable s → CreateAndInsertPage s data ID = some (s', e) → Reachable s'
  | deletePage (s s' : BufferPoolManager) (pageID : Int) (f : Int) (e : Option String) :
      Reachable s → DeletePage s pageID = some (s', f, e) → Reachable s'
  | fetchPage (s s' : BufferPoolManager) (pageID : Int) (p : Option Page)
      (e : Option String) :
      Reachable s → FetchPage s pageID = some (s', p, e) → Reachable s'
  | unpin (s s' : BufferPoolManager) (pageID : Int) (isDirty : Bool) (e : Option String) :
      Reachable s → Unpin s pageID isDirty = some (s', e) → Reachable s'
  | pin (s s' : BufferPoolManager) (pageID : Int) (e : Option String) :
      Reachable s → Pin s pageID = some (s', e) → Reachable s'

/-- Well-formedness of a pool state: the free list holds in-range indices,
each empty frame is on the free list exactly once, no occupied frame is on it,
the pointers in the frames are allocated objects, and every page-table entry
points at an occupied frame whose page carries the entry's PageID. -/
structure Inv (s : BufferPoolManager) : Prop where
  range : ∀ x ∈ s.freeList, 0 ≤ x ∧ x < 50
  free : ∀ i : Fin MaxPoolSize, s.pages i = none → List.count (i.val : Int) s.freeList = 1
  occ : ∀ (i : Fin MaxPoolSize) (a : Nat), s.pages i = some a →
    (i.val : Int) ∉ s.freeList ∧ a < s.brk
  table : ∀ (id f : Int), s.pageTable id = some f →
    ∃ (i : Fin MaxPoolSize) (a : Nat),
      frameIndex f = some i ∧ s.pages i = some a ∧ (s.heap a).ID = id

/-! ## Concrete pool states used as test inputs -/

/-- State component of an outcome, with a fallback for a panic. -/
def stateOf {α : Type} (r : Option (BufferPoolManager × α)) (d : BufferPoolManager) :
    BufferPoolManager :=
  match r with
  | some (s, _) => s
  | none => d

/-- A fresh pool on an empty heap: `NewBufferPoolManager(dm)`. -/
def pool0 : BufferPoolManager := NewBufferPoolManager (fun _ => zeroPage) 0 []

/-- The fresh pool after `CreateAndInsertPage([[1, 2]], 7)`. -/
def pool1 : BufferPoolManager := stateOf (CreateAndInsertPage pool0 [[1, 2]] 7) pool0

/-- The state `pool1` after a second `CreateAndInsertPage([[3]], 7)` with the
PageID that is already resident. -/
def pool2 : BufferPoolManager := stateOf (CreateAndInsertPage pool1 [[3]] 7) pool1

/-- The state `pool1` after `Unpin(7, true)`: its page is dirty. -/
def dirtyPool : BufferPoolManager := stateOf (Unpin pool1 7 true) pool1

/-- One round of filling a pool: `CreateAndInsertPage(nil, k)` then `Pin(k)`. -/
def fillStep (s : BufferPoolManager) (k : Nat) : BufferPoolManager :=
  let s1 := stateOf (CreateAndInsertPage s [] (k : Int)) s
  stateOf (Pin s1 (k : Int)) s1

/-- A pool whose 50 frames all hold pinned pages: pages 0 .. 49 are created
and pinned one after the other on a fresh pool. -/
def fullPool : BufferPoolManager := (List.range MaxPoolSize).foldl fillStep pool0

/-- The pointer a frame holds: `bpm.pages[frameID]`, when the index is in
range and the slot is not `nil`. -/
def pointerAt (bpm : BufferPoolManager) (frameID : Int) : Option Nat :=
  match frameIndex frameID with
  | none => none
  | some i => bpm.pages i

/-- A pool in which two frames hold the same pointer: the caller makes one
page with ID 5 and passes its pointer to `InsertPage` twice. -/
def sharedPool : BufferPoolManager :=
  let s0 := (allocPage pool0 { ID := 5, Data := [], IsDirty := false, IsPinned := false }).1
  let s1 := stateOf (InsertPage s0 (some 0)) s0
  stateOf (InsertPage s1 (some 0)) s1

end storage

/-! The prototype pool (package `buffer`).

The earlier draft of the pool: no replacer, no disk manager, `Data` is a flat
byte slice, and `DeletePage` does not return the frame to the free list.  It
is embedded the same way as package `storage`.
-/

namespace buffer

/-- Go constant `const MaxPoolSize = 50`. -/
def MaxPoolSize : Nat := 50

/-- Go type `Page`, a struct with fields `ID`, `Data`, `IsDirty`, `IsPinned`, with `Data []byte`. -/
structure Page where
  ID : Int
  Data : List Nat
  IsDirty : Bool
  IsPinned : Bool
deriving DecidableEq, Repr

/-- Go type `BufferPoolManager`, together with the heap of `Page` objects
its frames point into. -/
structure BufferPoolManager where
  heap : Nat → Page
  brk : Nat
  pages : Fin MaxPoolSize → Option Nat
  freeList : List Int
  pageTable : Int → Option Int

/-- Bounds check of `bpm.pages[frameID]`. -/
def frameIndex (frameID : Int) : Option (Fin MaxPoolSize) :=
  if h : 0 ≤ frameID ∧ frameID < (MaxPoolSize : Int) then
    some ⟨frameID.toNat, by
      have h1 : 0 ≤ frameID := h.1
      have h2 : frameID < 50 := h.2
      show frameID.toNat < 50
      omega⟩
  else none

/-- The zero value of `Page` (`var page Page`). -/
def zeroPage : Page := { ID := 0, Data := [], IsDirty := false, IsPinned := false }

/-- Go function `func (bpm *BufferPoolManager) NewPage(pageID PageID, data []byte) *Page`:
the new object is stored at address `brk`, which is returned. -/
def NewPage (bpm : BufferPoolManager) (pageID : Int) (data : List Nat) :
    BufferPoolManager × Nat :=
  ({ bpm with
     heap := Function.update bpm.heap bpm.brk
       { ID := pageID, Data := data, IsDirty := false, IsPinned := false }
     brk := bpm.brk + 1 },
   bpm.brk)

/-- Go function `func (bpm *BufferPoolManager) DeletePage(pageID PageID) error`. -/
def DeletePage (bpm : BufferPoolManager) (pageID : Int) :
    Option (BufferPoolManager × Option String) :=
  match bpm.pageTable pageID with
  | some frameID =>
    match frameIndex frameID with
    | none => none
    | some i =>
      match bpm.pages i with
      | none => none
      | some page =>
        if (bpm.heap page).IsPinned then
          some (bpm, some "Page is pinned, cannot delete")
        else
          some ({ bpm with
                  pageTable := Function.update bpm.pageTable pageID none
                  pages := Function.update bpm.pages i none },
                none)
  | none => some (bpm, some "Page not found")

/-- Go function `func (bpm *BufferPoolManager) Pin(pageID PageID) error`. -/
def Pin (bpm : BufferPoolManager) (pageID : Int) :
    Option (BufferPoolManager × Option String) :=
  match bpm.pageTable pageID with
  | some frameID =>
    match frameIndex frameID with
    | none => none
    | some i =>
      match bpm.pages i with
      | none => none
      | some page =>
        some ({ bpm with
                heap := Function.update bpm.heap page { bpm.heap page with IsPinned := true } },
              none)
  | none => some (bpm, some "Page Not Found")

/-- Go function `func (bpm *BufferPoolManager) Unpin(pageID PageID, isDirty bool) error`. -/
def Unpin (bpm : BufferPoolManager) (pageID : Int) (isDirty : Bool) :
    Option (BufferPoolManager × Option String) :=
  match bpm.pageTable pageID with
  | some frameID =>
    match frameIndex frameID with
    | none => none
    | some i =>
      match bpm.pages i with
      | none => none
      | some page =>
        some ({ bpm with
                heap := Function.update bpm.heap page
                  { bpm.heap page with IsDirty := isDirty, IsPinned := false } },
              none)
  | none => some (bpm, some "Page Not Found")

/-- Go function `func (bpm *BufferPoolManager) FetchPage(pageID PageID) (*Page, error)`.
The returned `*Page` points to a private copy; it is given by its value, and
`none` is the `nil` pointer. -/
def FetchPage (bpm : BufferPoolManager) (pageID : Int) :
    Option (BufferPoolManager × Option Page × Option String) :=
  match bpm.pageTable pageID with
  | some frameID =>
    match frameIndex frameID with
    | none => none
    | some i =>
      match bpm.pages i with
      | none => none
      | some a =>
        let page := bpm.heap a
        if page.IsPinned then
          some (bpm, none, some "Page is pinned, cannot access")
        else
          match Pin bpm pageID with
          | none => none
          | some (bpm1, _) => some (bpm1, some page, none)
  | none => some (bpm, some zeroPage, none)

/-- Loop of `NewBufferPoolManager`. -/
def initFrames : Nat → List Int × (Fin MaxPoolSize → Option Nat)
  | 0 => ([], fun _ => none)
  | i + 1 =>
    let (freeList, pages) := initFrames i
    (freeList ++ [(i : Int)],
     fun j => if j.val = i then none else pages j)

/-- Go function `func NewBufferPoolManager() *BufferPoolManager`. -/
def NewBufferPoolManager (heap : Nat → Page) (brk : Nat) : BufferPoolManager :=
  { heap := heap
    brk := brk
    pages := (initFrames MaxPoolSize).2
    freeList := (initFrames MaxPoolSize).1
    pageTable := fun _ => none }

/-- The resident page of a PageID: `*bpm.pages[bpm.pageTable[pageID]]`. -/
def residentPage (bpm : BufferPoolManager) (pageID : Int) : Option Page :=
  match bpm.pageTable pageID with
  | none => none
  | some frameID =>
    match frameIndex frameID with
    | none => none
    | some i =>
      match bpm.pages i with
      | none => none
      | some a => some (bpm.heap a)

end buffer

namespace storage

/-! ## Eviction -/

/-- Go function `func (bpm *BufferPoolManager) Evict(pageID PageID) error`.
The body of `bpm.replacer.Evict()` is not part of the source: its result, a
frame and an error, is the parameter `victim`.  The `pageID` argument (here
`_pageID`) is not used by the Go code.  The error that `DeletePage` returns is dropped, as in the
source. -/
def Evict (bpm : BufferPoolManager) (_pageID : Int) (victim : Int × Option String) :
    Option (BufferPoolManager × Option String) :=
  match victim with
  | (_, some err) => some (bpm, some err)
  | (frameID, none) =>
    match frameIndex frameID with
    | none => none
    | some i =>
      match bpm.pages i with
      | none => none
      | some page =>
        let req : DiskReq := { Page := bpm.heap page, Operation := "WRITE" }
        let bpm1 := { bpm with diskManager := bpm.diskManager ++ [req] }
        match DeletePage bpm1 (bpm1.heap page).ID with
        | none => none
        | some (bpm2, _, _) => some (bpm2, none)

/-- The state `pool1` after `FetchPage(7)`: its page is pinned. -/
def pinnedPool : BufferPoolManager := stateOf (FetchPage pool1 7) pool1

/-- The page that `CreateAndInsertPage([[1, 2]], 7)` makes. -/
def page7 : Page := { ID := 7, Data := [[1, 2]], IsDirty := false, IsPinned := false }

/-! ## Disk manager (`disk-manager.go`)

The backing file is a list of bytes (each a `Nat` below 256) with the file
offset that `Read`, `Write` and `Seek` share.  `Offset` and `HeaderSize` are
`int64` values, modelled as `Int`; conversions to and from `uint64` are
explicit.  Device failures are not modelled: a file operation fails only for
the reasons the `os` package documents (end of file, negative offset, a file
that would grow past the largest offset).  Memory is bounded: `make` stops the
program when the requested length cannot be allocated.  The JSON encoder and
decoder are library code and enter as parameters. -/

/-- Go constant `const PageSize = 2048`. -/
def PageSize : Nat := 2048

/-- Go runtime constant `maxAlloc` of the 64-bit platforms: no single allocation
is larger than 2^48 bytes. -/
def maxAlloc : Nat := 281474976710656

/-- The largest file offset, `math.MaxInt64`. -/
def maxOffset : Nat := 9223372036854775807

/-- Builtin `make([]byte, n)` for a length that comes from `HeaderSize`: a
zeroed slice, or `none` when the program stops.  It stops with a run-time panic
for a negative length and for a length above `maxAlloc`, and with a fatal error
for a length above `allocLimit`, the largest allocation that the machine at
hand can serve.  The file is modelled as a byte array, so a length that the
file's own array already has (`held`) can be served. -/
def makeBytes (allocLimit held : Nat) (n : Int) : Option (List Nat) :=
  if n < 0 then none
  else if n.toNat ≤ held ∨ (n.toNat ≤ allocLimit ∧ n.toNat ≤ maxAlloc) then
    some (List.replicate n.toNat 0)
  else none

/-- The file behind `*os.File`: its bytes and its current offset. -/
structure OsFile where
  bytes : List Nat
  pos : Nat
deriving DecidableEq, Repr

/-- Library call `File.ReadAt(buf, off)` with `len(buf) = n`: the `n` bytes at
`off`, or `none` for the error `io.EOF` when fewer than `n` bytes are there. -/
def fileReadAt (f : OsFile) (n off : Nat) : Option (List Nat) :=
  if off + n ≤ f.bytes.length then some ((f.bytes.drop off).take n) else none

/-- Library call `File.WriteAt(buf, off)`: the bytes at `off` are replaced, the
file grows as needed (a gap reads as zeros), and writing nothing does nothing.
The file offset is not moved.  A write inside the present extent of the file
succeeds; `none` is the error for a write that would make the file reach past
`maxOffset` (what such a failed write leaves in the file is not modelled). -/
def fileWriteAt (f : OsFile) (buf : List Nat) (off : Nat) : Option OsFile :=
  if buf = [] then some f
  else if off + buf.length ≤ f.bytes.length ∨ off + buf.length ≤ maxOffset then
    some { f with
           bytes := f.bytes.take off ++ List.replicate (off - f.bytes.length) 0 ++ buf ++
             f.bytes.drop (off + buf.length) }
  else none

/-- Library call `File.Write(buf)`: a write at the current offset, which then
moves past the written bytes; `none` is the error of `fileWriteAt`. -/
def fileWrite (f : OsFile) (buf : List Nat) : Option OsFile :=
  match fileWriteAt f buf f.pos with
  | none => none
  | some f1 => some { f1 with pos := f.pos + buf.length }

/-- Library call `File.Seek(off, io.SeekStart)`: `none` is the error for a
negative offset. -/
def fileSeek (f : OsFile) (off : Int) : Option OsFile :=
  if off < 0 then none else some { f with pos := off.toNat }

/-- Library call `File.Read(buf)` with a zeroed `buf` of length `n`: the bytes
available at the current offset are copied to the front of `buf` and the
offset moves past them; `none` is the error `io.EOF` when nothing is left. -/
def fileRead (f : OsFile) (n : Nat) : Option (OsFile × List Nat) :=
  let avail := (f.bytes.drop f.pos).take n
  if n ≠ 0 ∧ avail = [] then none
  else some ({ f with pos := f.pos + avail.length },
             avail ++ List.replicate (n - avail.length) 0)

/-- The eight bytes `byte(v >> 56), .., byte(v)` of a `uint64`. -/
def bigEndian64 (v : Nat) : List Nat :=
  [v / 72057594037927936 % 256, v / 281474976710656 % 256, v / 1099511627776 % 256,
   v / 4294967296 % 256, v / 16777216 % 256, v / 65536 % 256, v / 256 % 256, v % 256]

/-- Library call `binary.BigEndian.PutUint64(b, v)`: `none` is the panic for a
slice shorter than eight bytes. -/
def PutUint64 (b : List Nat) (v : Nat) : Option (List Nat) :=
  if b.length < 8 then none else some (bigEndian64 v ++ b.drop 8)

/-- Library call `binary.BigEndian.Uint64(b)`: the bytes are below 256, so the
bitwise or of the shifted bytes is their sum; `none` is the panic for a slice
shorter than eight bytes. -/
def Uint64 : List Nat → Option Nat
  | b0 :: b1 :: b2 :: b3 :: b4 :: b5 :: b6 :: b7 :: _ =>
    some (b0 * 72057594037927936 + b1 * 281474976710656 + b2 * 1099511627776 +
      b3 * 4294967296 + b4 * 16777216 + b5 * 65536 + b6 * 256 + b7)
  | _ => none

/-- Conversion `uint64(offset)` of an `int64`. -/
def uint64OfOffset (offset : Int) : Nat := (offset % 18446744073709551616).toNat

/-- Conversion `Offset(u)` of a `uint64` to `int64`. -/
def offsetOfUint64 (u : Nat) : Int :=
  if u < 9223372036854775808 then (u : Int) else (u : Int) - 18446744073709551616

/-- Builtin `copy(dst, src)`: the first `min(len(dst), len(src))` bytes of
`dst` are replaced. -/
def copyBytes (dst src : List Nat) : List Nat :=
  src.take dst.length ++ dst.drop src.length

/-- Go type `DirectoryPage`: `Mapping map[PageID]Offset`. -/
structure DirectoryPage where
  Mapping : Int → Option Int

/-- Go type `DiskManager`: the file, the directory page held in memory and the
header size.  The `Scheduler` field is left out: the body of `DiskScheduler`
is not part of the source and no function below uses it.  `allocLimit` is not
a field of the Go struct: it is the largest allocation that the machine the
program runs on can serve, see `makeBytes`. -/
structure DiskManager where
  File : OsFile
  DirectoryPage : DirectoryPage
  HeaderSize : Int
  allocLimit : Nat

/-- Go function `func (dm *DiskManager) readHeader() (Offset, error)`. -/
def readHeader (dm : DiskManager) : Option (Int × Option String) :=
  match makeBytes dm.allocLimit dm.File.bytes.length dm.HeaderSize with
  | none => none
  | some buf =>
    match fileReadAt dm.File buf.length 0 with
    | none => some (0, some "EOF")
    | some headerBytes =>
      if headerBytes.any (fun b => b != 0) then
        if headerBytes.length < 8 then none
        else
          match Uint64 (headerBytes.take 8) with
          | none => none
          | some u => some (offsetOfUint64 u, none)
      else some (0, none)

/-- Go function `func (dm *DiskManager) initializeHeader() error`. -/
def initializeHeader (dm : DiskManager) : Option (DiskManager × Option String) :=
  match makeBytes dm.allocLimit dm.File.bytes.length dm.HeaderSize with
  | none => none
  | some defaultHeader =>
    match fileWrite dm.File defaultHeader with
    | none => some (dm, some "file too large")
    | some f1 => some ({ dm with File := f1 }, none)

/-- Go function `func (dm *DiskManager) SetDefaultHeader() error`. -/
def SetDefaultHeader (dm : DiskManager) : Option (DiskManager × Option String) :=
  let fileSize : Int := (dm.File.bytes.length : Int)
  if fileSize < dm.HeaderSize then initializeHeader dm
  else some (dm, none)

/-- Go function `func (dm *DiskManager) updateHeader(offset Offset) error`. -/
def updateHeader (dm : DiskManager) (offset : Int) : Option (DiskManager × Option String) :=
  match makeBytes dm.allocLimit dm.File.bytes.length dm.HeaderSize with
  | none => none
  | some zeros =>
    match PutUint64 zeros (uint64OfOffset offset) with
    | none => none
    | some offsetBytes =>
      match makeBytes dm.allocLimit dm.File.bytes.length dm.HeaderSize with
      | none => none
      | some buf =>
        match fileReadAt dm.File buf.length 0 with
        | none => some (dm, some "EOF")
        | some headerBytes =>
          let headerBytes := copyBytes (headerBytes.take dm.HeaderSize.toNat) offsetBytes
          match fileWriteAt dm.File headerBytes 0 with
          | none => some (dm, some "file too large")
          | some f1 => some ({ dm with File := f1 }, none)

/-- Go function `func (dm *DiskManager) WriteDirectoryDisk(pageBytes []byte) (Offset, error)`.
A `pageBytes` longer than `PageSize` makes `make` panic; the padding, at most
`PageSize` bytes, is taken to be allocated. -/
def WriteDirectoryDisk (dm : DiskManager) (pageBytes : List Nat) :
    Option (DiskManager × Int × Option String) :=
  let offset := dm.HeaderSize
  if PageSize < pageBytes.length then none
  else
    let paddingSize := PageSize - pageBytes.length
    let buffer := pageBytes ++ List.replicate paddingSize 0
    if offset < 0 then some (dm, 0, some "negative offset")
    else
      match fileWriteAt dm.File buffer offset.toNat with
      | none => some (dm, 0, some "file too large")
      | some f1 =>
        let dm1 := { dm with File := f1 }
        let n := buffer.length
        if n ≠ PageSize then some (dm1, 0, some "failed to write entire page to disk")
        else some (dm1, offset, none)

/-- Index of the first zero byte, if there is one: the loop of
`LoadDirectoryPage`. -/
def firstZero : List Nat → Option Nat
  | [] => none
  | b :: bs => if b = 0 then some 0 else (firstZero bs).map (fun k => k + 1)

/-- Go function `func (dm *DiskManager) LoadDirectoryPage(offset Offset) error`.
`Unmarshal` is `json.Unmarshal` into `&dm.DirectoryPage`: it receives the
bytes and the present directory page and gives the new one and an error.
`endIndex` starts at 0 and is set at the first zero byte. -/
def LoadDirectoryPage (Unmarshal : List Nat → DirectoryPage → DirectoryPage × Option String)
    (dm : DiskManager) (offset : Int) : Option (DiskManager × Option String) :=
  match fileSeek dm.File offset with
  | none => some (dm, some "invalid argument")
  | some f1 =>
    match fileRead f1 PageSize with
    | none => some ({ dm with File := f1 }, some "EOF")
    | some (f2, dirPageBytes) =>
      let endIndex := (firstZero dirPageBytes).getD 0
      match Unmarshal (dirPageBytes.take endIndex) dm.DirectoryPage with
      | (d, some err) => some ({ dm with File := f2, DirectoryPage := d }, some err)
      | (d, none) => some ({ dm with File := f2, DirectoryPage := d }, none)

/-- Go function `func (dm *DiskManager) createDirectoryPage() error`.
`Encode` is the function `Encode` of the source, a call of `json.Marshal`. -/
def createDirectoryPage (Encode : DirectoryPage → List Nat × Option String)
    (dm : DiskManager) : Option (DiskManager × Option String) :=
  let directoryPage : DirectoryPage := { Mapping := fun _ => none }
  let dm1 := { dm with DirectoryPage := directoryPage }
  match Encode directoryPage with
  | (_, some err) => some (dm1, some err)
  | (dirPageBytes, none) =>
    match WriteDirectoryDisk dm1 dirPageBytes with
    | none => none
    | some (dm2, _, some err) => some (dm2, some err)
    | some (dm2, pageLocation, none) => updateHeader dm2 pageLocation

/-- Go function `func (dm *DiskManager) loadOrCreateDirectoryPage() error`. -/
def loadOrCreateDirectoryPage (Encode : DirectoryPage → List Nat × Option String)
    (Unmarshal : List Nat → DirectoryPage → DirectoryPage × Option String)
    (dm : DiskManager) : Option (DiskManager × Option String) :=
  match readHeader dm with
  | none => none
  | some (_, some err) => some (dm, some err)
  | some (directoryPageOffset, none) =>
    if directoryPageOffset = 0 then createDirectoryPage Encode dm
    else LoadDirectoryPage Unmarshal dm directoryPageOffset

/-- Go function `func NewDiskManager(filename string, headerSize int64) (*DiskManager, error)`.
`fileBytes` is the content of the file that `os.OpenFile` opens (empty when the
file is created); the offset of a file just opened is 0.  `allocLimit` is the
largest allocation the machine can serve.  The result carries the state of the
file also when an error is returned. -/
def NewDiskManager (allocLimit : Nat) (Encode : DirectoryPage → List Nat × Option String)
    (Unmarshal : List Nat → DirectoryPage → DirectoryPage × Option String)
    (fileBytes : List Nat) (headerSize : Int) : Option (DiskManager × Option String) :=
  let dm : DiskManager :=
    { File := { bytes := fileBytes, pos := 0 }
      DirectoryPage := { Mapping := fun _ => none }
      HeaderSize := headerSize
      allocLimit := allocLimit }
  match SetDefaultHeader dm with
  | none => none
  | some (dm1, some err) => some (dm1, some err)
  | some (dm1, none) => loadOrCreateDirectoryPage Encode Unmarshal dm1

/-- The JSON text of an empty directory page, as `json.Marshal` gives it: the
14 bytes of the text with key `Mapping` and an empty object. -/
def emptyDirectoryJSON : List Nat :=
  [123, 34, 77, 97, 112, 112, 105, 110, 103, 34, 58, 123, 125, 125]

/-- An encoder that agrees with `json.Marshal` on the empty directory page
(the only page the bootstrap encodes). -/
def sampleEncode (_d : DirectoryPage) : List Nat × Option String := (emptyDirectoryJSON, none)

/-- A decoder standing in for `json.Unmarshal`: it rejects an empty input, as
`json.Unmarshal` does, and otherwise leaves the directory page as it is. -/
def sampleUnmarshal (b : List Nat) (d : DirectoryPage) : DirectoryPage × Option String :=
  if b = [] then (d, some "unexpected end of JSON input") else (d, none)

/-- A disk manager with a 16-byte header on a file of 20 bytes, all of them 9,
on a machine that can allocate a megabyte. -/
def sampleStore : DiskManager :=
  { File := { bytes := List.replicate 20 9, pos := 0 }
    DirectoryPage := { Mapping := fun _ => none }
    HeaderSize := 16
    allocLimit := 1048576 }

/-- An encoded directory of exactly `PageSize` bytes without a zero byte: 2048
times the digit 1. -/
def fullDirectory : List Nat := List.replicate PageSize 49

/-! ## Frame indices -/

theorem frameIndex_eq_some {f : Int} {i : Fin MaxPoolSize} (h : frameIndex f = some i) :
    f = (i.val : Int) := by
  unfold frameIndex at h
  split at h
  · rename_i hb
    have h0 : 0 ≤ f := hb.1
    injection h with h
    subst h
    simp [Int.toNat_of_nonneg h0]
  · cases h

theorem frameIndex_range {f : Int} {i : Fin MaxPoolSize} (h : frameIndex f = some i) :
    0 ≤ f ∧ f < 50 := by
  have hf := frameIndex_eq_some h
  have hi : i.val < 50 := i.isLt
  omega

theorem frameIndex_isSome {f : Int} (h0 : 0 ≤ f) (h1 : f < 50) :
    ∃ i, frameIndex f = some i := by
  unfold frameIndex
  have hb : 0 ≤ f ∧ f < (MaxPoolSize : Int) := ⟨h0, h1⟩
  rw [dif_pos hb]
  exact ⟨_, rfl⟩

theorem cast_ne_of_ne {i j : Fin MaxPoolSize} (h : j ≠ i) : (j.val : Int) ≠ (i.val : Int) := by
  intro hc
  apply h
  apply Fin.ext
  omega

/-! ## The initial state -/

theorem initFrames_freeList (n : Nat) :
    (initFrames n).1 = (List.range n).map (fun k : Nat => (k : Int)) := by
  induction n with
  | zero => rfl
  | succ n ih =>
    simp only [initFrames, List.range_succ, List.map_append, List.map_cons, List.map_nil]
    rw [ih]

theorem initFrames_pages (n : Nat) (j : Fin MaxPoolSize) : (initFrames n).2 j = none := by
  induction n with
  | zero => rfl
  | succ n ih =>
    simp only [initFrames]
    split
    · rfl
    · exact ih

theorem mem_initFrames {n : Nat} {x : Int} :
    x ∈ (initFrames n).1 ↔ 0 ≤ x ∧ x < (n : Int) := by
  rw [initFrames_freeList]
  simp only [List.mem_map, List.mem_range]
  constructor
  · rintro ⟨k, hk, rfl⟩
    omega
  · rintro ⟨h0, h1⟩
    exact ⟨x.toNat, by omega, by omega⟩

theorem nodup_initFrames (n : Nat) : ((initFrames n).1).Nodup := by
  rw [initFrames_freeList]
  apply List.Nodup.map
  · intro a b hab
    exact Int.ofNat.inj hab
  · exact List.nodup_range n

theorem inv_NewBufferPoolManager (heap : Nat → Page) (brk : Nat) (dm : List DiskReq) :
    Inv (NewBufferPoolManager heap brk dm) where
  range := by
    intro x hx
    have h := (mem_initFrames (n := MaxPoolSize)).1 hx
    exact h
  free := by
    intro i _
    have hi : i.val < 50 := i.isLt
    apply List.count_eq_one_of_mem (nodup_initFrames MaxPoolSize)
    apply (mem_initFrames (n := MaxPoolSize)).2
    constructor
    · omega
    · show (i.val : Int) < ((50 : Nat) : Int)
      omega
  occ := by
    intro i a h
    have hn : (initFrames MaxPoolSize).2 i = none := initFrames_pages MaxPoolSize i
    have h2 : (initFrames MaxPoolSize).2 i = some a := h
    rw [hn] at h2
    cases h2
  table := by
    intro id f h
    cases h

/-! ## Each operation keeps the state well-formed -/

theorem inv_allocPage {s : BufferPoolManager} (p : Page) (h : Inv s) : Inv (allocPage s p).1 where
  range := h.range
  free := h.free
  occ := by
    intro i a hp
    have := h.occ i a hp
    exact ⟨this.1, Nat.lt_succ_of_lt this.2⟩
  table := by
    intro id f hf
    obtain ⟨i, a, hfi, hp, hid⟩ := h.table id f hf
    refine ⟨i, a, hfi, hp, ?_⟩
    have hlt := (h.occ i a hp).2
    show (Function.update s.heap s.brk p a).ID = id
    rw [Function.update_noteq (Nat.ne_of_lt hlt)]
    exact hid

theorem head_frame_empty {s : BufferPoolManager} (h : Inv s) {x : Int} {rest : List Int}
    (hfl : s.freeList = x :: rest) {i : Fin MaxPoolSize} (hx : frameIndex x = some i) :
    s.pages i = none := by
  cases hp : s.pages i with
  | none => rfl
  | some a =>
    exfalso
    apply (h.occ i a hp).1
    rw [hfl, ← frameIndex_eq_some hx]
    exact List.mem_cons_self x rest

theorem inv_InsertPage {s s' : BufferPoolManager} {a : Nat} {r : Bool} (h : Inv s)
    (ha : a < s.brk) (hop : InsertPage s (some a) = some (s', r)) : Inv s' := by
  unfold InsertPage at hop
  split at hop
  · cases hop
    exact h
  · rename_i x rest hfl
    split at hop
    · cases hop
    · rename_i i hx
      simp only [Option.some.injEq, Prod.mk.injEq] at hop
      obtain ⟨hs, _⟩ := hop
      subst hs
      have hxi : x = (i.val : Int) := frameIndex_eq_some hx
      have hempty : s.pages i = none := head_frame_empty h hfl hx
      have hcount : List.count (i.val : Int) rest = 0 := by
        have hc := h.free i hempty
        rw [hfl, hxi, List.count_cons_self] at hc
        omega
      refine ⟨?_, ?_, ?_, ?_⟩
      · intro y hy
        apply h.range
        rw [hfl]
        exact List.mem_cons_of_mem x hy
      · intro j hj
        have hji : j ≠ i := by
          intro hc
          subst hc
          simp at hj
        change Function.update s.pages i (some a) j = none at hj
        rw [Function.update_noteq hji] at hj
        have hc := h.free j hj
        rw [hfl, hxi, List.count_cons_of_ne (cast_ne_of_ne hji)] at hc
        exact hc
      · intro j b hj
        change Function.update s.pages i (some a) j = some b at hj
        by_cases hji : j = i
        · subst hji
          rw [Function.update_same] at hj
          injection hj with hj
          subst hj
          exact ⟨List.count_eq_zero.1 hcount, ha⟩
        · rw [Function.update_noteq hji] at hj
          have ho := h.occ j b hj
          refine ⟨?_, ho.2⟩
          intro hm
          apply ho.1
          rw [hfl]
          exact List.mem_cons_of_mem x hm
      · intro id f hf
        change Function.update s.pageTable (s.heap a).ID (some x) id = some f at hf
        by_cases hid : id = (s.heap a).ID
        · subst hid
          rw [Function.update_same] at hf
          injection hf with hf
          subst hf
          refine ⟨i, a, hx, ?_, rfl⟩
          show Function.update s.pages i (some a) i = some a
          rw [Function.update_same]
        · rw [Function.update_noteq hid] at hf
          obtain ⟨j, b, hfj, hp, hb⟩ := h.table id f hf
          refine ⟨j, b, hfj, ?_, hb⟩
          have hji : j ≠ i := by
            intro hc
            subst hc
            rw [hempty] at hp
            cases hp
          show Function.update s.pages i (some a) j = some b
          rw [Function.update_noteq hji]
          exact hp

theorem inv_CreateAndInsertPage {s s' : BufferPoolManager} {data : List (List Nat)} {ID : Int}
    {e : Option String} (h : Inv s) (hop : CreateAndInsertPage s data ID = some (s', e)) :
    Inv s' := by
  unfold CreateAndInsertPage at hop
  simp only at hop
  split at hop
  · cases hop
  · rename_i s2 isAdded hins
    have hinv : Inv s2 :=
      inv_InsertPage (inv_allocPage _ h) (Nat.lt_succ_self s.brk) hins
    split at hop
    · cases hop
      exact hinv
    · cases hop
      exact hinv

theorem inv_DeletePage {s s' : BufferPoolManager} {pageID f : Int} {e : Option String}
    (h : Inv s) (hop : DeletePage s pageID = some (s', f, e)) : Inv s' := by
  unfold DeletePage at hop
  split at hop
  · rename_i frameID htab
    split at hop
    · cases hop
    · rename_i i hx
      split at hop
      · cases hop
      · rename_i a hp
        split at hop
        · cases hop
          exact h
        · simp only [Option.some.injEq, Prod.mk.injEq] at hop
          obtain ⟨hs, _⟩ := hop
          subst hs
          have hxi : frameID = (i.val : Int) := frameIndex_eq_some hx
          have hnot : (i.val : Int) ∉ s.freeList := (h.occ i a hp).1
          refine ⟨?_, ?_, ?_, ?_⟩
          · intro y hy
            change y ∈ s.freeList ++ [frameID] at hy
            rw [List.mem_append] at hy
            cases hy with
            | inl hy => exact h.range y hy
            | inr hy =>
              rw [List.mem_singleton] at hy
              subst hy
              exact frameIndex_range hx
          · intro j hj
            change Function.update s.pages i none j = none at hj
            show List.count (j.val : Int) (s.freeList ++ [frameID]) = 1
            rw [List.count_append]
            by_cases hji : j = i
            · subst hji
              rw [hxi, List.count_eq_zero.2 hnot]
              simp
            · rw [Function.update_noteq hji] at hj
              rw [h.free j hj, hxi, List.count_cons_of_ne (cast_ne_of_ne hji)]
              simp
          · intro j b hj
            change Function.update s.pages i none j = some b at hj
            have hji : j ≠ i := by
              intro hc
              subst hc
              rw [Function.update_same] at hj
              cases hj
            rw [Function.update_noteq hji] at hj
            have ho := h.occ j b hj
            refine ⟨?_, ho.2⟩
            show (j.val : Int) ∉ s.freeList ++ [frameID]
            rw [List.mem_append, List.mem_singleton, hxi]
            rintro (hm | hm)
            · exact ho.1 hm
            · exact cast_ne_of_ne hji hm
          · intro id g hg
            change Function.update s.pageTable pageID none id = some g at hg
            have hid : id ≠ pageID := by
              intro hc
              subst hc
              rw [Function.update_same] at hg
              cases hg
            rw [Function.update_noteq hid] at hg
            obtain ⟨j, b, hgj, hpj, hb⟩ := h.table id g hg
            refine ⟨j, b, hgj, ?_, hb⟩
            have hji : j ≠ i := by
              intro hc
              subst hc
              rw [hp] at hpj
              injection hpj with hpj
              subst hpj
              obtain ⟨k, c, hk, hpk, hc⟩ := h.table pageID frameID htab
              rw [hx] at hk
              injection hk with hk
              subst hk
              rw [hp] at hpk
              injection hpk with hpk
              subst hpk
              exact hid (hb.symm.trans hc)
            show Function.update s.pages i none j = some b
            rw [Function.update_noteq hji]
            exact hpj
  · cases hop
    exact h

/-- Writing flags through a frame's pointer keeps the state well-formed: the
object keeps its `ID`. -/
theorem inv_setFlags {s : BufferPoolManager} (h : Inv s) (a : Nat) (d p : Bool)
    (rep : List Int) :
    Inv { s with
          heap := Function.update s.heap a { s.heap a with IsDirty := d, IsPinned := p }
          replacer := rep } where
  range := h.range
  free := h.free
  occ := h.occ
  table := by
    intro id f hf
    obtain ⟨i, b, hfi, hp, hid⟩ := h.table id f hf
    refine ⟨i, b, hfi, hp, ?_⟩
    show (Function.update s.heap a { s.heap a with IsDirty := d, IsPinned := p } b).ID = id
    by_cases hba : b = a
    · subst hba
      rw [Function.update_same]
      exact hid
    · rw [Function.update_noteq hba]
      exact hid

theorem inv_Pin {s s' : BufferPoolManager} {pageID : Int} {e : Option String}
    (h : Inv s) (hop : Pin s pageID = some (s', e)) : Inv s' := by
  unfold Pin at hop
  split at hop
  · rename_i frameID htab
    split at hop
    · cases hop
    · split at hop
      · cases hop
      · rename_i a hp
        simp only [Option.some.injEq, Prod.mk.injEq] at hop
        obtain ⟨hs, _⟩ := hop
        subst hs
        exact inv_setFlags h a (s.heap a).IsDirty true (s.replacer ++ [frameID])
  · cases hop
    exact h

theorem inv_Unpin {s s' : BufferPoolManager} {pageID : Int} {isDirty : Bool}
    {e : Option String} (h : Inv s) (hop : Unpin s pageID isDirty = some (s', e)) : Inv s' := by
  unfold Unpin at hop
  split at hop
  · split at hop
    · cases hop
    · split at hop
      · cases hop
      · rename_i a hp
        simp only [Option.some.injEq, Prod.mk.injEq] at hop
        obtain ⟨hs, _⟩ := hop
        subst hs
        exact inv_setFlags h a isDirty false s.replacer
  · cases hop
    exact h

theorem inv_FetchPage {s s' : BufferPoolManager} {pageID : Int} {p : Option Page}
    {e : Option String} (h : Inv s) (hop : FetchPage s pageID = some (s', p, e)) : Inv s' := by
  unfold FetchPage at hop
  split at hop
  · split at hop
    · cases hop
    · split at hop
      · cases hop
      · simp only at hop
        split at hop
        · cases hop
          exact h
        · split at hop
          · cases hop
          · rename_i s1 e1 hpin
            cases hop
            exact inv_Pin h hpin
  · cases hop
    exact ⟨h.range, h.free, h.occ, h.table⟩

theorem inv_of_reachable {s : BufferPoolManager} (h : Reachable s) : Inv s := by
  induction h with
  | init heap brk dm => exact inv_NewBufferPoolManager heap brk dm
  | alloc s p _ ih => exact inv_allocPage p ih
  | insertPage s s' a r _ ha hop ih => exact inv_InsertPage ih ha hop
  | createAndInsertPage s s' data ID e _ hop ih => exact inv_CreateAndInsertPage ih hop
  | deletePage s s' pageID f e _ hop ih => exact inv_DeletePage ih hop
  | fetchPage s s' pageID p e _ hop ih => exact inv_FetchPage ih hop
  | unpin s s' pageID isDirty e _ hop ih => exact inv_Unpin ih hop
  | pin s s' pageID e _ hop ih => exact inv_Pin ih hop

/-- The resident page of a PageID, spelled out: the page-table entry, the
array slot it indexes and the pointer stored there. -/
theorem residentPage_eq_some {s : BufferPoolManager} {id : Int} {p : Page} :
    residentPage s id = some p ↔
      ∃ (f : Int) (i : Fin MaxPoolSize) (a : Nat),
        s.pageTable id = some f ∧ frameIndex f = some i ∧ s.pages i = some a ∧ s.heap a = p := by
  unfold residentPage pageAt
  constructor
  · intro h
    split at h
    · cases h
    · rename_i f hf
      split at h
      · cases h
      · rename_i i hi
        split at h
        · cases h
        · rename_i a ha
          injection h with h
          exact ⟨f, i, a, hf, hi, ha, h⟩
  · rintro ⟨f, i, a, hf, hi, ha, h⟩
    simp only [hf, hi, ha, h]

/-! ## No operation panics on a well-formed state -/

theorem residentPage_isSome_of_inv {s : BufferPoolManager} (h : Inv s) {id f : Int}
    (hf : s.pageTable id = some f) : ∃ p, residentPage s id = some p ∧ p.ID = id := by
  obtain ⟨i, a, hfi, hp, hid⟩ := h.table id f hf
  exact ⟨s.heap a, residentPage_eq_some.2 ⟨f, i, a, hf, hfi, hp, rfl⟩, hid⟩

theorem InsertPage_returns {s : BufferPoolManager} (h : Inv s) (a : Nat) :
    ∃ s' r, InsertPage s (some a) = some (s', r) := by
  unfold InsertPage
  cases hfl : s.freeList with
  | nil => exact ⟨_, _, rfl⟩
  | cons x rest =>
    have hx := h.range x (by rw [hfl]; exact List.mem_cons_self x rest)
    obtain ⟨i, hi⟩ := frameIndex_isSome hx.1 hx.2
    simp only [hi]
    exact ⟨_, _, rfl⟩

theorem CreateAndInsertPage_returns {s : BufferPoolManager} (h : Inv s)
    (data : List (List Nat)) (ID : Int) :
    ∃ s' e, CreateAndInsertPage s data ID = some (s', e) := by
  obtain ⟨s', r, hr⟩ := InsertPage_returns
    (inv_allocPage { ID := ID, Data := data, IsDirty := false, IsPinned := false } h)
    (allocPage s { ID := ID, Data := data, IsDirty := false, IsPinned := false }).2
  unfold CreateAndInsertPage
  simp only
  rw [hr]
  cases r with
  | true => exact ⟨_, _, rfl⟩
  | false => exact ⟨_, _, rfl⟩

theorem DeletePage_returns {s : BufferPoolManager} (h : Inv s) (id : Int) :
    ∃ s' f e, DeletePage s id = some (s', f, e) := by
  unfold DeletePage
  cases hf : s.pageTable id with
  | none => exact ⟨_, _, _, rfl⟩
  | some f =>
    obtain ⟨i, a, hfi, hp, _⟩ := h.table id f hf
    simp only [hfi, hp]
    cases (s.heap a).IsPinned with
    | true => exact ⟨_, _, _, rfl⟩
    | false => exact ⟨_, _, _, rfl⟩

theorem Pin_returns {s : BufferPoolManager} (h : Inv s) (id : Int) :
    ∃ s' e, Pin s id = some (s', e) := by
  unfold Pin
  cases hf : s.pageTable id with
  | none => exact ⟨_, _, rfl⟩
  | some f =>
    obtain ⟨i, a, hfi, hp, _⟩ := h.table id f hf
    simp only [hfi, hp]
    exact ⟨_, _, rfl⟩

theorem Unpin_returns {s : BufferPoolManager} (h : Inv s) (id : Int) (isDirty : Bool) :
    ∃ s' e, Unpin s id isDirty = some (s', e) := by
  unfold Unpin
  cases hf : s.pageTable id with
  | none => exact ⟨_, _, rfl⟩
  | some f =>
    obtain ⟨i, a, hfi, hp, _⟩ := h.table id f hf
    simp only [hfi, hp]
    exact ⟨_, _, rfl⟩

theorem FetchPage_returns {s : BufferPoolManager} (h : Inv s) (id : Int) :
    ∃ s' p e, FetchPage s id = some (s', p, e) := by
  obtain ⟨s1, e1, hpin⟩ := Pin_returns h id
  unfold FetchPage
  cases hf : s.pageTable id with
  | none => exact ⟨_, _, _, rfl⟩
  | some f =>
    obtain ⟨i, a, hfi, hp, _⟩ := h.table id f hf
    simp only [hfi, hp, hpin]
    cases (s.heap a).IsPinned with
    | true => exact ⟨_, _, _, rfl⟩
    | false => exact ⟨_, _, _, rfl⟩

/-! ## Facts about the test inputs -/

theorem pool1_step : CreateAndInsertPage pool0 [[1, 2]] 7 = some (pool1, none) := rfl

theorem pool2_step : CreateAndInsertPage pool1 [[3]] 7 = some (pool2, none) := rfl

theorem reachable_pool0 : Reachable pool0 := Reachable.init _ _ _

theorem reachable_pool1 : Reachable pool1 :=
  Reachable.createAndInsertPage pool0 pool1 [[1, 2]] 7 none reachable_pool0 pool1_step

theorem reachable_pool2 : Reachable pool2 :=
  Reachable.createAndInsertPage pool1 pool2 [[3]] 7 none reachable_pool1 pool2_step

/-! ## Invariants of the reachable states -/

/-- C1: in every state reachable from `NewBufferPoolManager` the free list and
the occupied frames partition `[0, 50)`: each frame index is either on the free
list exactly once with an empty (`nil`) slot, or absent from the free list with
a slot that holds a page; and the free list holds no index outside `[0, 50)`. -/
theorem C1_freeList_occupied_partition (s : BufferPoolManager) (h : Reachable s) :
    (∀ i : Fin MaxPoolSize,
      (List.count (i.val : Int) s.freeList = 1 ∧ s.pages i = none) ∨
      ((i.val : Int) ∉ s.freeList ∧ ∃ a, s.pages i = some a)) ∧
    (∀ x ∈ s.freeList, 0 ≤ x ∧ x < 50) := by
  have hinv := inv_of_reachable h
  refine ⟨?_, hinv.range⟩
  intro i
  cases hp : s.pages i with
  | none => exact Or.inl ⟨hinv.free i hp, rfl⟩
  | some a => exact Or.inr ⟨(hinv.occ i a hp).1, a, rfl⟩

/-- Witness for C1 at the pool that holds one page. -/
theorem C1_freeList_occupied_partition_witness :
    Reachable pool1 ∧
    ((∀ i : Fin MaxPoolSize,
      (List.count (i.val : Int) pool1.freeList = 1 ∧ pool1.pages i = none) ∨
      ((i.val : Int) ∉ pool1.freeList ∧ ∃ a, pool1.pages i = some a)) ∧
    (∀ x ∈ pool1.freeList, 0 ≤ x ∧ x < 50)) :=
  ⟨reachable_pool1, C1_freeList_occupied_partition pool1 reachable_pool1⟩

/-- In a well-formed state a page-table entry leads to a page carrying its
PageID. -/
theorem pageAt_of_table {s : BufferPoolManager} (hinv : Inv s) {id f : Int}
    (hf : s.pageTable id = some f) : ∃ p, pageAt s f = some p ∧ p.ID = id := by
  obtain ⟨i, a, hfi, hp, hid⟩ := hinv.table id f hf
  refine ⟨s.heap a, ?_, hid⟩
  unfold pageAt
  rw [hfi]
  simp only [hp]

/-- C2: in every reachable state, each PageID in the page table maps to an
in-range frame that holds a page whose `ID` is that PageID, and two distinct
PageIDs never map to the same frame. -/
theorem C2_pageTable_matching_ID (s : BufferPoolManager) (h : Reachable s) :
    (∀ id f : Int, s.pageTable id = some f →
      ∃ p, pageAt s f = some p ∧ p.ID = id) ∧
    (∀ id1 id2 f : Int, s.pageTable id1 = some f → s.pageTable id2 = some f → id1 = id2) := by
  have hinv := inv_of_reachable h
  refine ⟨fun id f hf => pageAt_of_table hinv hf, ?_⟩
  intro id1 id2 f h1 h2
  obtain ⟨p1, hp1, e1⟩ := pageAt_of_table hinv h1
  obtain ⟨p2, hp2, e2⟩ := pageAt_of_table hinv h2
  rw [hp1] at hp2
  injection hp2 with hp2
  subst hp2
  exact e1.symm.trans e2

/-- Witness for C2 at the pool that holds one page. -/
theorem C2_pageTable_matching_ID_witness :
    Reachable pool1 ∧
    ((∀ id f : Int, pool1.pageTable id = some f →
      ∃ p, pageAt pool1 f = some p ∧ p.ID = id) ∧
    (∀ id1 id2 f : Int, pool1.pageTable id1 = some f → pool1.pageTable id2 = some f →
      id1 = id2)) :=
  ⟨reachable_pool1, C2_pageTable_matching_ID pool1 reachable_pool1⟩

/-- C3 (fails on the code): after `CreateAndInsertPage` is called twice with
the same PageID 7, the state is reachable, frame 0 still holds the first page
(whose `ID` is 7), the page table maps 7 to frame 1, and no PageID maps to
frame 0: an occupied frame is unreferenced, so the page table is not a
bijection onto the occupied frames. -/
theorem C3_duplicate_insert_orphans_frame :
    Reachable pool2 ∧
    pageAt pool2 0 = some { ID := 7, Data := [[1, 2]], IsDirty := false, IsPinned := false } ∧
    pool2.pageTable 7 = some 1 ∧
    ¬ ∃ id : Int, pool2.pageTable id = some 0 := by
  refine ⟨reachable_pool2, rfl, rfl, ?_⟩
  rintro ⟨id, hid⟩
  obtain ⟨p, hp, hpid⟩ := pageAt_of_table (inv_of_reachable reachable_pool2) hid
  have h0 : pageAt pool2 0 =
      some { ID := 7, Data := [[1, 2]], IsDirty := false, IsPinned := false } := rfl
  rw [h0] at hp
  injection hp with hp
  subst hp
  have h7 : pool2.pageTable 7 = some 1 := rfl
  have hid7 : id = 7 := hpid.symm
  subst hid7
  rw [h7] at hid
  cases hid

/-! ## DeletePage -/

/-- C4: for every pool state and PageID, `DeletePage` returns an error exactly
when the PageID is not in the page table or its resident page is pinned, and
whenever it returns an error the state (pages array, free list, page table,
and the page objects) is unchanged. -/
theorem C4_DeletePage_error_iff (s : BufferPoolManager) (id : Int) :
    ((∃ s' f e, DeletePage s id = some (s', f, some e)) ↔
      (s.pageTable id = none ∨ ∃ p, residentPage s id = some p ∧ p.IsPinned = true)) ∧
    (∀ s' f e, DeletePage s id = some (s', f, some e) →
      s' = s ∧ s'.pages = s.pages ∧ s'.freeList = s.freeList ∧ s'.pageTable = s.pageTable) := by
  have unchanged : ∀ s' f e, DeletePage s id = some (s', f, some e) → s' = s := by
    intro s' f e hop
    unfold DeletePage at hop
    split at hop
    · split at hop
      · cases hop
      · split at hop
        · cases hop
        · split at hop
          · cases hop
            rfl
          · cases hop
    · cases hop
      rfl
  refine ⟨⟨?_, ?_⟩, ?_⟩
  · rintro ⟨s', f, e, hop⟩
    unfold DeletePage at hop
    split at hop
    · rename_i frameID hf
      split at hop
      · cases hop
      · rename_i i hi
        split at hop
        · cases hop
        · rename_i a ha
          split at hop
          · rename_i hpin
            right
            exact ⟨s.heap a, residentPage_eq_some.2 ⟨frameID, i, a, hf, hi, ha, rfl⟩, hpin⟩
          · cases hop
    · rename_i hf
      left
      exact hf
  · rintro (hf | ⟨p, hres, hpin⟩)
    · refine ⟨s, 0, "Page not found", ?_⟩
      unfold DeletePage
      simp only [hf]
    · obtain ⟨f, i, a, hf, hi, ha, hp⟩ := residentPage_eq_some.1 hres
      subst hp
      refine ⟨s, 0, "Page is pinned, cannot delete", ?_⟩
      unfold DeletePage
      simp only [hf, hi, ha, hpin, if_true]
  · intro s' f e hop
    have hs := unchanged s' f e hop
    subst hs
    exact ⟨rfl, rfl, rfl, rfl⟩

/-- C5: when the PageID is in the page table with frame `f` and the page in
frame `f` is not pinned, `DeletePage` returns `(f, nil)`; afterwards the PageID
is gone from the page table, slot `f` is `nil`, the free list is the old one
with `f` appended, and every other page-table entry, every other slot and all
page objects are as before. -/
theorem C5_DeletePage_success (s : BufferPoolManager) (id f : Int) (p : Page)
    (htab : s.pageTable id = some f) (hpage : pageAt s f = some p)
    (hpin : p.IsPinned = false) :
    ∃ s', DeletePage s id = some (s', f, none) ∧
      s'.pageTable id = none ∧
      (∀ id', id' ≠ id → s'.pageTable id' = s.pageTable id') ∧
      pageAt s' f = none ∧
      (∃ i, frameIndex f = some i ∧ s'.pages i = none ∧
        ∀ j, j ≠ i → s'.pages j = s.pages j) ∧
      s'.freeList = s.freeList ++ [f] ∧
      s'.heap = s.heap := by
  unfold pageAt at hpage
  split at hpage
  · cases hpage
  · rename_i i hi
    split at hpage
    · cases hpage
    · rename_i a ha
      injection hpage with hpage
      subst hpage
      refine ⟨{ s with
                pageTable := Function.update s.pageTable id none
                pages := Function.update s.pages i none
                freeList := s.freeList ++ [f] }, ?_, ?_, ?_, ?_, ?_, rfl, rfl⟩
      · unfold DeletePage
        simp only [htab, hi, ha, hpin]
        rfl
      · show Function.update s.pageTable id none id = none
        rw [Function.update_same]
      · intro id' hne
        show Function.update s.pageTable id none id' = s.pageTable id'
        rw [Function.update_noteq hne]
      · unfold pageAt
        simp only [hi]
        have : Function.update s.pages i none i = none := Function.update_same _ _ _
        simp only [this]
      · refine ⟨i, hi, ?_, ?_⟩
        · show Function.update s.pages i none i = none
          rw [Function.update_same]
        · intro j hne
          show Function.update s.pages i none j = s.pages j
          rw [Function.update_noteq hne]

/-- Witness for C5: deleting the only page of `pool1`. -/
theorem C5_DeletePage_success_witness :
    ∃ s', DeletePage pool1 7 = some (s', 0, none) ∧
      s'.pageTable 7 = none ∧
      (∀ id', id' ≠ 7 → s'.pageTable id' = pool1.pageTable id') ∧
      pageAt s' 0 = none ∧
      (∃ i, frameIndex 0 = some i ∧ s'.pages i = none ∧
        ∀ j, j ≠ i → s'.pages j = pool1.pages j) ∧
      s'.freeList = pool1.freeList ++ [0] ∧
      s'.heap = pool1.heap :=
  C5_DeletePage_success pool1 7 0
    { ID := 7, Data := [[1, 2]], IsDirty := false, IsPinned := false } rfl rfl rfl

/-! ## FetchPage, Pin, Unpin -/

/-- Writing an object through pointer `a` shows in the resident page of every
PageID whose frame holds `a`. -/
theorem residentPage_update_heap {s : BufferPoolManager} {id f : Int} {i : Fin MaxPoolSize}
    {a : Nat} (hf : s.pageTable id = some f) (hi : frameIndex f = some i)
    (ha : s.pages i = some a) (q : Page) (rep : List Int) :
    residentPage { s with heap := Function.update s.heap a q, replacer := rep } id = some q := by
  apply residentPage_eq_some.2
  refine ⟨f, i, a, hf, hi, ha, ?_⟩
  show Function.update s.heap a q a = q
  rw [Function.update_same]

theorem reachable_sharedPool : Reachable sharedPool := by
  have h0 : Reachable
      (allocPage pool0 { ID := 5, Data := [], IsDirty := false, IsPinned := false }).1 :=
    Reachable.alloc pool0 _ reachable_pool0
  have h1 := Reachable.insertPage _
    (stateOf (InsertPage
      (allocPage pool0 { ID := 5, Data := [], IsDirty := false, IsPinned := false }).1
      (some 0)) pool0) 0 true h0 (by decide) rfl
  exact Reachable.insertPage _ sharedPool 0 true h1 (by decide) rfl

/-- Frames are pointers.  In `sharedPool` frames 0 and 1 hold the same pointer
and the page table maps PageID 5 to frame 1; `FetchPage(5)` leaves the pages
array as it is and pins the one object, which frame 0 holds too. -/
theorem sharedPool_FetchPage :
    Reachable sharedPool ∧
    pointerAt sharedPool 0 = some 0 ∧ pointerAt sharedPool 1 = some 0 ∧
    sharedPool.pageTable 5 = some 1 ∧
    (pageAt sharedPool 0).map Page.IsPinned = some false ∧
    ∃ s', (FetchPage sharedPool 5).map (fun r => r.1) = some s' ∧
      s'.pages = sharedPool.pages ∧
      (pageAt s' 0).map Page.IsPinned = some true :=
  ⟨reachable_sharedPool, rfl, rfl, rfl, rfl,
    stateOf (FetchPage sharedPool 5) sharedPool, rfl, rfl, rfl⟩

theorem reachable_fillStep {s : BufferPoolManager} (k : Nat) (h : Reachable s) :
    Reachable (fillStep s k) := by
  have h1 : Reachable (stateOf (CreateAndInsertPage s [] (k : Int)) s) := by
    cases hc : CreateAndInsertPage s [] (k : Int) with
    | none => exact h
    | some r => exact Reachable.createAndInsertPage s r.1 [] (k : Int) r.2 h hc
  unfold fillStep
  simp only
  cases hc : Pin (stateOf (CreateAndInsertPage s [] (k : Int)) s) (k : Int) with
  | none => exact h1
  | some r => exact Reachable.pin _ r.1 (k : Int) r.2 h1 hc

theorem reachable_foldl_fillStep (l : List Nat) {s : BufferPoolManager} (h : Reachable s) :
    Reachable (l.foldl fillStep s) := by
  induction l generalizing s with
  | nil => exact h
  | cons k l ih => exact ih (reachable_fillStep k h)

theorem reachable_fullPool : Reachable fullPool :=
  reachable_foldl_fillStep _ reachable_pool0

set_option maxRecDepth 100000 in
theorem fullPool_freeList : fullPool.freeList = [] := by decide

set_option maxRecDepth 100000 in
theorem fullPool_pageTable_50 : fullPool.pageTable 50 = none := by decide

set_option maxRecDepth 100000 in
theorem fullPool_all_pinned :
    ∀ i : Fin MaxPoolSize, (pageAt fullPool (i.val : Int)).map Page.IsPinned = some true := by
  decide

set_option maxRecDepth 100000 in
theorem fullPool_FetchPage_50 :
    (FetchPage fullPool 50).map (fun r => r.2) = some (some zeroPage, none) := by decide

/-- C7 (as stated, refuted): `fullPool` is reachable, its free list is empty,
all 50 frames hold pinned pages and PageID 50 is not resident, yet
`FetchPage(50)` returns the zero page with a nil error: no error is returned. -/
theorem C7_full_pool_fetch_returns_no_error :
    Reachable fullPool ∧ fullPool.freeList = [] ∧
    (∀ i : Fin MaxPoolSize, (pageAt fullPool (i.val : Int)).map Page.IsPinned = some true) ∧
    fullPool.pageTable 50 = none ∧
    (FetchPage fullPool 50).map (fun r => r.2) = some (some zeroPage, none) ∧
    ¬ ∃ s' q e, FetchPage fullPool 50 = some (s', q, some e) := by
  refine ⟨reachable_fullPool, fullPool_freeList, fullPool_all_pinned, fullPool_pageTable_50,
    fullPool_FetchPage_50, ?_⟩
  rintro ⟨s', q, e, h⟩
  have h2 := fullPool_FetchPage_50
  rw [h] at h2
  simp at h2

/-- C7 (amended): for every pool state and every PageID that is not in the
page table, `FetchPage` returns a pointer to a zero-valued page and a nil
error; the pages array, the free list, the page table and the page objects are
unchanged, and one READ request for the zero page has been handed to the disk
scheduler. -/
theorem C7_FetchPage_not_resident (s : BufferPoolManager) (id : Int)
    (h : s.pageTable id = none) :
    ∃ s', FetchPage s id = some (s', some zeroPage, none) ∧
      s'.pages = s.pages ∧ s'.freeList = s.freeList ∧ s'.pageTable = s.pageTable ∧
      s'.heap = s.heap ∧ s'.replacer = s.replacer ∧
      s'.diskManager = s.diskManager ++ [{ Page := zeroPage, Operation := "READ" }] := by
  refine ⟨{ s with
            diskManager := s.diskManager ++ [{ Page := zeroPage, Operation := "READ" }] },
          ?_, rfl, rfl, rfl, rfl, rfl, rfl⟩
  unfold FetchPage
  simp only [h]

/-- Witness for the amended C7 at the full pool of pinned pages. -/
theorem C7_FetchPage_not_resident_witness :
    ∃ s', FetchPage fullPool 50 = some (s', some zeroPage, none) ∧
      s'.pages = fullPool.pages ∧ s'.freeList = fullPool.freeList ∧
      s'.pageTable = fullPool.pageTable ∧
      s'.heap = fullPool.heap ∧ s'.replacer = fullPool.replacer ∧
      s'.diskManager = fullPool.diskManager ++ [{ Page := zeroPage, Operation := "READ" }] :=
  C7_FetchPage_not_resident fullPool 50 fullPool_pageTable_50

theorem dirtyPool_step : Unpin pool1 7 true = some (dirtyPool, none) := rfl

theorem reachable_dirtyPool : Reachable dirtyPool :=
  Reachable.unpin pool1 dirtyPool 7 true none reachable_pool1 dirtyPool_step

/-- C8 (as stated, refuted): `dirtyPool` is reachable and its page 7 is dirty;
`Unpin(7, false)` returns nil and leaves the page with `IsDirty = false`,
which is not `true || false`. -/
theorem C8_unpin_false_clears_dirty :
    Reachable dirtyPool ∧
    (residentPage dirtyPool 7).map Page.IsDirty = some true ∧
    ∃ s', Unpin dirtyPool 7 false = some (s', none) ∧
      (residentPage s' 7).map Page.IsDirty = some false ∧
      (residentPage s' 7).map Page.IsDirty ≠
        (residentPage dirtyPool 7).map (fun p => p.IsDirty || false) := by
  refine ⟨reachable_dirtyPool, rfl, stateOf (Unpin dirtyPool 7 false) dirtyPool, rfl, rfl, ?_⟩
  decide

/-- C8 (amended): for every pool state, every resident PageID and every
boolean `isDirty`, `Unpin` returns nil and afterwards the resident page's
`IsDirty` equals `isDirty` (the flag is overwritten), with `ID` and `Data`
unchanged. -/
theorem C8_Unpin_sets_dirty (s : BufferPoolManager) (id : Int) (p : Page) (isDirty : Bool)
    (hres : residentPage s id = some p) :
    ∃ s' p', Unpin s id isDirty = some (s', none) ∧ residentPage s' id = some p' ∧
      p'.IsDirty = isDirty ∧ p'.ID = p.ID ∧ p'.Data = p.Data := by
  obtain ⟨f, i, a, hf, hi, ha, hp⟩ := residentPage_eq_some.1 hres
  subst hp
  refine ⟨{ s with
            heap := Function.update s.heap a
              { s.heap a with IsDirty := isDirty, IsPinned := false } },
          { s.heap a with IsDirty := isDirty, IsPinned := false }, ?_, ?_, rfl, rfl, rfl⟩
  · unfold Unpin
    simp only [hf, hi, ha]
  · exact residentPage_update_heap hf hi ha _ s.replacer

/-- Witness for the amended C8: `Unpin(7, false)` on the dirty page. -/
theorem C8_Unpin_sets_dirty_witness :
    ∃ s' p', Unpin dirtyPool 7 false = some (s', none) ∧ residentPage s' 7 = some p' ∧
      p'.IsDirty = false ∧ p'.ID = 7 ∧ p'.Data = [[1, 2]] :=
  C8_Unpin_sets_dirty dirtyPool 7
    { ID := 7, Data := [[1, 2]], IsDirty := true, IsPinned := false } false rfl

/-- C9 (as stated, refuted): page 7 of the reachable state `pool1` is resident
and not pinned, and `Unpin(7, true)` returns nil: no error is returned. -/
theorem C9_unpin_unpinned_returns_nil :
    Reachable pool1 ∧
    (residentPage pool1 7).map Page.IsPinned = some false ∧
    (Unpin pool1 7 true).map (fun r => r.2) = some none ∧
    ¬ ∃ s' e, Unpin pool1 7 true = some (s', some e) := by
  refine ⟨reachable_pool1, rfl, rfl, ?_⟩
  rintro ⟨s', e, h⟩
  have h2 : (Unpin pool1 7 true).map (fun r => r.2) = some none := rfl
  rw [h] at h2
  simp at h2

/-- C9 (amended): unpinning a resident page that is not pinned succeeds: for
every pool state, every resident PageID whose page has `IsPinned = false` and
every `isDirty`, `Unpin` returns nil and the page is still not pinned. -/
theorem C9_Unpin_unpinned_succeeds (s : BufferPoolManager) (id : Int) (p : Page)
    (isDirty : Bool) (hres : residentPage s id = some p) (hpin : p.IsPinned = false) :
    ∃ s', Unpin s id isDirty = some (s', none) ∧
      (residentPage s' id).map Page.IsPinned = some false ∧
      s'.pages = s.pages ∧ s'.freeList = s.freeList ∧ s'.pageTable = s.pageTable := by
  obtain ⟨f, i, a, hf, hi, ha, hp⟩ := residentPage_eq_some.1 hres
  subst hp
  refine ⟨{ s with
            heap := Function.update s.heap a
              { s.heap a with IsDirty := isDirty, IsPinned := false } }, ?_, ?_, rfl, rfl, rfl⟩
  · unfold Unpin
    simp only [hf, hi, ha]
  · rw [residentPage_update_heap hf hi ha _ s.replacer]
    rfl

/-- Witness for the amended C9 at `pool1`. -/
theorem C9_Unpin_unpinned_succeeds_witness :
    ∃ s', Unpin pool1 7 true = some (s', none) ∧
      (residentPage s' 7).map Page.IsPinned = some false ∧
      s'.pages = pool1.pages ∧ s'.freeList = pool1.freeList ∧
      s'.pageTable = pool1.pageTable :=
  C9_Unpin_unpinned_succeeds pool1 7
    { ID := 7, Data := [[1, 2]], IsDirty := false, IsPinned := false } true rfl rfl

/-- C10: for every pool state and every PageID that is not in the page table,
`Unpin` and `Pin` each return the error "Page Not Found" and leave the whole
state (pages array, free list, page table, page objects) unchanged. -/
theorem C10_Unpin_Pin_not_found (s : BufferPoolManager) (id : Int) (isDirty : Bool)
    (h : s.pageTable id = none) :
    Unpin s id isDirty = some (s, some "Page Not Found") ∧
    Pin s id = some (s, some "Page Not Found") := by
  constructor
  · unfold Unpin
    simp only [h]
  · unfold Pin
    simp only [h]

/-- Witness for C10: PageID 8 is not in the page table of `pool1`. -/
theorem C10_Unpin_Pin_not_found_witness :
    Unpin pool1 8 true = some (pool1, some "Page Not Found") ∧
    Pin pool1 8 = some (pool1, some "Page Not Found") :=
  C10_Unpin_Pin_not_found pool1 8 true rfl

end storage

/-! ## The prototype (package `buffer`) behaves the same on these points -/

namespace buffer

theorem proto_residentPage_eq_some {s : BufferPoolManager} {id : Int} {p : Page} :
    residentPage s id = some p ↔
      ∃ (f : Int) (i : Fin MaxPoolSize) (a : Nat),
        s.pageTable id = some f ∧ frameIndex f = some i ∧ s.pages i = some a ∧ s.heap a = p := by
  unfold residentPage
  constructor
  · intro h
    split at h
    · cases h
    · rename_i f hf
      split at h
      · cases h
      · rename_i i hi
        split at h
        · cases h
        · rename_i a ha
          injection h with h
          exact ⟨f, i, a, hf, hi, ha, h⟩
  · rintro ⟨f, i, a, hf, hi, ha, h⟩
    simp only [hf, hi, ha, h]

/-- Prototype `FetchPage` on a resident, unpinned page: returns a copy of the
page and a nil error, and pins the resident page; nothing else changes. -/
theorem proto_FetchPage_resident_unpinned (s : BufferPoolManager) (id : Int) (p : Page)
    (hres : residentPage s id = some p) (hpin : p.IsPinned = false) :
    ∃ s', FetchPage s id = some (s', some p, none) ∧
      residentPage s' id = some { p with IsPinned := true } ∧
      s'.pageTable = s.pageTable ∧ s'.freeList = s.freeList ∧ s'.pages = s.pages := by
  obtain ⟨f, i, a, hf, hi, ha, hp⟩ := proto_residentPage_eq_some.1 hres
  subst hp
  refine ⟨{ s with heap := Function.update s.heap a { s.heap a with IsPinned := true } },
    ?_, ?_, rfl, rfl, rfl⟩
  · unfold FetchPage
    simp only [hf, hi, ha, hpin, Pin]
    rfl
  · apply proto_residentPage_eq_some.2
    refine ⟨f, i, a, hf, hi, ha, ?_⟩
    show Function.update s.heap a { s.heap a with IsPinned := true } a = _
    rw [Function.update_same]

/-- Prototype `FetchPage` on a PageID that is not in the page table: returns a
zero-valued page and a nil error, whatever the state of the frames, and
changes nothing. -/
theorem proto_FetchPage_not_resident (s : BufferPoolManager) (id : Int)
    (h : s.pageTable id = none) : FetchPage s id = some (s, some zeroPage, none) := by
  unfold FetchPage
  simp only [h]

/-- Prototype `Unpin` on a resident page: returns nil and overwrites the dirty
flag with `isDirty`. -/
theorem proto_Unpin_sets_dirty (s : BufferPoolManager) (id : Int) (p : Page) (isDirty : Bool)
    (hres : residentPage s id = some p) :
    ∃ s', Unpin s id isDirty = some (s', none) ∧
      residentPage s' id = some { p with IsDirty := isDirty, IsPinned := false } := by
  obtain ⟨f, i, a, hf, hi, ha, hp⟩ := proto_residentPage_eq_some.1 hres
  subst hp
  refine ⟨{ s with
            heap := Function.update s.heap a
              { s.heap a with IsDirty := isDirty, IsPinned := false } }, ?_, ?_⟩
  · unfold Unpin
    simp only [hf, hi, ha]
  · apply proto_residentPage_eq_some.2
    refine ⟨f, i, a, hf, hi, ha, ?_⟩
    show Function.update s.heap a _ a = _
    rw [Function.update_same]

end buffer

namespace storage

/-! ## Explicit results of InsertPage and DeletePage -/

theorem InsertPage_cons {s : BufferPoolManager} {f : Int} {rest : List Int}
    {i : Fin MaxPoolSize} (a : Nat) (hfl : s.freeList = f :: rest)
    (hi : frameIndex f = some i) :
    InsertPage s (some a) =
      some ({ s with
              freeList := rest
              pages := Function.update s.pages i (some a)
              pageTable := Function.update s.pageTable (s.heap a).ID (some f) }, true) := by
  unfold InsertPage
  simp only [hfl, hi]

theorem InsertPage_nil {s : BufferPoolManager} (page : Option Nat) (hfl : s.freeList = []) :
    InsertPage s page = some (s, false) := by
  unfold InsertPage
  simp only [hfl]

theorem InsertPage_false {s s' : BufferPoolManager} {page : Option Nat}
    (h : InsertPage s page = some (s', false)) : s.freeList = [] ∧ s' = s := by
  unfold InsertPage at h
  split at h
  · rename_i hfl
    cases h
    exact ⟨hfl, rfl⟩
  · split at h
    · cases h
    · split at h
      · cases h
      · cases h

theorem DeletePage_unpinned {s : BufferPoolManager} {id f : Int} {i : Fin MaxPoolSize}
    {a : Nat} (hf : s.pageTable id = some f) (hi : frameIndex f = some i)
    (ha : s.pages i = some a) (hpin : (s.heap a).IsPinned = false) :
    DeletePage s id =
      some ({ s with
              pageTable := Function.update s.pageTable id none
              pages := Function.update s.pages i none
              freeList := s.freeList ++ [f] }, f, none) := by
  unfold DeletePage
  simp only [hf, hi, ha, hpin]
  rfl

theorem DeletePage_ok_freeList {s s' : BufferPoolManager} {id f : Int}
    (h : DeletePage s id = some (s', f, none)) : s'.freeList = s.freeList ++ [f] := by
  unfold DeletePage at h
  split at h
  · split at h
    · cases h
    · split at h
      · cases h
      · split at h
        · cases h
        · cases h
          rfl
  · cases h

theorem CreateAndInsertPage_cons {s : BufferPoolManager} {f : Int} {rest : List Int}
    {i : Fin MaxPoolSize} (data : List (List Nat)) (ID : Int) (hfl : s.freeList = f :: rest)
    (hi : frameIndex f = some i) :
    CreateAndInsertPage s data ID =
      some ({ s with
              heap := Function.update s.heap s.brk
                { ID := ID, Data := data, IsDirty := false, IsPinned := false }
              brk := s.brk + 1
              freeList := rest
              pages := Function.update s.pages i (some s.brk)
              pageTable := Function.update s.pageTable ID (some f) }, none) := by
  unfold CreateAndInsertPage InsertPage allocPage
  simp only [hfl, hi, Function.update_same]
  rfl

theorem CreateAndInsertPage_nil {s : BufferPoolManager} (data : List (List Nat)) (ID : Int)
    (hfl : s.freeList = []) :
    CreateAndInsertPage s data ID =
      some ((allocPage s { ID := ID, Data := data, IsDirty := false, IsPinned := false }).1,
        some "unable to add page to buffer pool") := by
  unfold CreateAndInsertPage InsertPage allocPage
  simp only [hfl]
  rfl

/-! ## CreateAndInsertPage and the free list -/

/-- C11 (as stated, refuted): `CreateAndInsertPage([[1, 2]], 7)` on a fresh
pool returns nil and the resident page 7 has `IsDirty = false` and
`IsPinned = false`; the page the prototype's `NewPage` builds has both flags
false as well. -/
theorem C11_new_page_is_clean_and_unpinned :
    CreateAndInsertPage pool0 [[1, 2]] 7 = some (pool1, none) ∧
    residentPage pool1 7 =
      some { ID := 7, Data := [[1, 2]], IsDirty := false, IsPinned := false } ∧
    (residentPage pool1 7).map Page.IsDirty ≠ some true ∧
    (residentPage pool1 7).map Page.IsPinned ≠ some true ∧
    (let r := buffer.NewPage (buffer.NewBufferPoolManager (fun _ => buffer.zeroPage) 0) 7 [1, 2]
     r.1.heap r.2 = { ID := 7, Data := [1, 2], IsDirty := false, IsPinned := false }) := by
  refine ⟨rfl, rfl, ?_, ?_, rfl⟩
  · decide
  · decide

/-- C11 (amended): for every pool state whose free list is not empty (with an
in-range frame at its head) and every `data` and `ID`, `CreateAndInsertPage`
returns nil and afterwards the resident page for `ID` has the given `ID` and
`Data`, `IsDirty = false` and `IsPinned = false`.  The page built by the
prototype's `NewPage` is a new object with the given `ID` and `Data` and both
flags false. -/
theorem C11_CreateAndInsertPage_flags (s : BufferPoolManager) (data : List (List Nat))
    (ID f : Int) (rest : List Int) (i : Fin MaxPoolSize)
    (hfl : s.freeList = f :: rest) (hi : frameIndex f = some i) :
    (∃ s', CreateAndInsertPage s data ID = some (s', none) ∧
      residentPage s' ID =
        some { ID := ID, Data := data, IsDirty := false, IsPinned := false }) ∧
    (∀ (t : buffer.BufferPoolManager) (pageID : Int) (d : List Nat),
      (buffer.NewPage t pageID d).2 = t.brk ∧
      (buffer.NewPage t pageID d).1.heap (buffer.NewPage t pageID d).2 =
        { ID := pageID, Data := d, IsDirty := false, IsPinned := false }) := by
  constructor
  · refine ⟨_, CreateAndInsertPage_cons data ID hfl hi, ?_⟩
    apply residentPage_eq_some.2
    refine ⟨f, i, s.brk, ?_, hi, ?_, ?_⟩
    · show Function.update s.pageTable ID (some f) ID = some f
      rw [Function.update_same]
    · show Function.update s.pages i (some s.brk) i = some s.brk
      rw [Function.update_same]
    · show Function.update s.heap s.brk _ s.brk = _
      rw [Function.update_same]
  · intro t pageID d
    refine ⟨rfl, ?_⟩
    show Function.update t.heap t.brk _ t.brk = _
    rw [Function.update_same]

/-- Witness for the amended C11 on a fresh pool. -/
theorem C11_CreateAndInsertPage_flags_witness :
    (∃ s', CreateAndInsertPage pool0 [[1, 2]] 7 = some (s', none) ∧
      residentPage s' 7 =
        some { ID := 7, Data := [[1, 2]], IsDirty := false, IsPinned := false }) ∧
    (∀ (t : buffer.BufferPoolManager) (pageID : Int) (d : List Nat),
      (buffer.NewPage t pageID d).2 = t.brk ∧
      (buffer.NewPage t pageID d).1.heap (buffer.NewPage t pageID d).2 =
        { ID := pageID, Data := d, IsDirty := false, IsPinned := false }) :=
  C11_CreateAndInsertPage_flags pool0 [[1, 2]] 7 0 pool1.freeList ⟨0, by decide⟩ rfl rfl

/-- C12: frame allocation is first-in first-out over the free list.  For every
pool state and non-nil page pointer: `InsertPage` returns false exactly when
the free list is empty, and then the state is unchanged; when the free list is
`f :: rest` (with `f` a frame index) it returns true, stores the pointer in
frame `f`, sets the page-table entry of the page's ID to `f`, leaves `rest` as
the free list and changes nothing else.  A successful `DeletePage` appends its
frame at the tail, and a new pool starts with the free list `0, 1, .., 49`.
`CreateAndInsertPage` returns an error exactly when its `InsertPage` call
returns false, that is, exactly when the free list is empty. -/
theorem C12_InsertPage_FIFO (s : BufferPoolManager) (a : Nat) :
    ((∃ s', InsertPage s (some a) = some (s', false)) ↔ s.freeList = []) ∧
    (∀ s', InsertPage s (some a) = some (s', false) → s' = s) ∧
    (∀ (f : Int) (rest : List Int) (i : Fin MaxPoolSize),
      s.freeList = f :: rest → frameIndex f = some i →
      ∃ s', InsertPage s (some a) = some (s', true) ∧
        pointerAt s' f = some a ∧ s'.pages i = some a ∧
        s'.pageTable (s.heap a).ID = some f ∧
        s'.freeList = rest ∧
        (∀ j, j ≠ i → s'.pages j = s.pages j) ∧
        (∀ id, id ≠ (s.heap a).ID → s'.pageTable id = s.pageTable id) ∧
        s'.heap = s.heap) ∧
    (∀ (id f : Int) (s' : BufferPoolManager), DeletePage s id = some (s', f, none) →
      s'.freeList = s.freeList ++ [f]) ∧
    (∀ (heap : Nat → Page) (brk : Nat) (dm : List DiskReq),
      (NewBufferPoolManager heap brk dm).freeList =
        (List.range 50).map (fun k : Nat => (k : Int))) ∧
    (∀ (data : List (List Nat)) (ID : Int),
      ((∃ s' e, CreateAndInsertPage s data ID = some (s', some e)) ↔
        ∃ s', InsertPage
          (allocPage s { ID := ID, Data := data, IsDirty := false, IsPinned := false }).1
          (some (allocPage s
            { ID := ID, Data := data, IsDirty := false, IsPinned := false }).2) =
          some (s', false)) ∧
      ((∃ s' e, CreateAndInsertPage s data ID = some (s', some e)) ↔ s.freeList = [])) := by
  refine ⟨⟨?_, ?_⟩, ?_, ?_, ?_, ?_, ?_⟩
  · rintro ⟨s', h⟩
    exact (InsertPage_false h).1
  · intro hfl
    exact ⟨s, InsertPage_nil _ hfl⟩
  · intro s' h
    exact (InsertPage_false h).2
  · intro f rest i hfl hi
    refine ⟨_, InsertPage_cons a hfl hi, ?_, ?_, ?_, rfl, ?_, ?_, rfl⟩
    · unfold pointerAt
      simp only [hi]
      exact Function.update_same _ _ _
    · exact Function.update_same _ _ _
    · exact Function.update_same _ _ _
    · intro j hj
      exact Function.update_noteq hj _ _
    · intro id hid
      exact Function.update_noteq hid _ _
  · intro id f s' h
    exact DeletePage_ok_freeList h
  · intro heap brk dm
    exact initFrames_freeList MaxPoolSize
  · intro data ID
    have key : (∃ s' e, CreateAndInsertPage s data ID = some (s', some e)) ↔
        s.freeList = [] := by
      constructor
      · rintro ⟨s', e, h⟩
        cases hfl : s.freeList with
        | nil => rfl
        | cons f rest =>
          exfalso
          unfold CreateAndInsertPage InsertPage allocPage at h
          simp only [hfl] at h
          split at h
          · cases h
          · rename_i s2 isAdded heq
            split at heq
            · cases heq
            · cases heq
              simp at h
      · intro hfl
        exact ⟨_, _, CreateAndInsertPage_nil data ID hfl⟩
    refine ⟨?_, key⟩
    rw [key]
    constructor
    · intro hfl
      exact ⟨_, InsertPage_nil _ hfl⟩
    · rintro ⟨s', h⟩
      exact (InsertPage_false h).1

/-! ## Eviction -/

theorem pinnedPool_step :
    FetchPage pool1 7 =
      some (pinnedPool,
        some { ID := 7, Data := [[1, 2]], IsDirty := false, IsPinned := false }, none) := rfl

theorem reachable_pinnedPool : Reachable pinnedPool :=
  Reachable.fetchPage pool1 pinnedPool 7 _ none reachable_pool1 pinnedPool_step

/-- C17 (fails on the code): in the reachable state `pinnedPool` frame 0 holds
the pinned page 7.  With victim frame 0, `Evict` returns nil, yet afterwards
frame 0 still holds the page, 0 is not on the free list and PageID 7 is still
in the page table: the error of `DeletePage` was dropped.  In the reachable
state `pool2` (PageID 7 inserted twice) frame 0 holds an unpinned page; with
victim frame 0, `Evict` returns nil, frame 0 still holds its page and frame 1
was freed in its place. -/
theorem C17_Evict_returns_nil_without_evicting :
    (Reachable pinnedPool ∧
      (pageAt pinnedPool 0).map Page.IsPinned = some true ∧
      ∃ s', Evict pinnedPool 7 (0, none) = some (s', none) ∧
        pageAt s' 0 =
          some { ID := 7, Data := [[1, 2]], IsDirty := false, IsPinned := true } ∧
        (0 : Int) ∉ s'.freeList ∧ s'.pageTable 7 = some 0) ∧
    (Reachable pool2 ∧
      (pageAt pool2 0).map Page.IsPinned = some false ∧
      ∃ s', Evict pool2 7 (0, none) = some (s', none) ∧
        pageAt s' 0 =
          some { ID := 7, Data := [[1, 2]], IsDirty := false, IsPinned := false } ∧
        (0 : Int) ∉ s'.freeList ∧ pageAt s' 1 = none ∧ (1 : Int) ∈ s'.freeList) := by
  refine ⟨⟨reachable_pinnedPool, rfl, stateOf (Evict pinnedPool 7 (0, none)) pinnedPool,
      rfl, rfl, ?_, rfl⟩,
    ⟨reachable_pool2, rfl, stateOf (Evict pool2 7 (0, none)) pool2, rfl, rfl, ?_, rfl, ?_⟩⟩
  · decide
  · decide
  · decide

/-- What `Evict` does achieve: when the victim frame holds an unpinned page
and the page table maps that page's ID to the victim frame, `Evict` returns
nil, the frame is emptied and appended to the free list, the page's ID leaves
the page table, and one WRITE request for the page has been queued. -/
theorem Evict_unpinned_referenced (s : BufferPoolManager) (pid v : Int)
    (i : Fin MaxPoolSize) (a : Nat) (hi : frameIndex v = some i) (ha : s.pages i = some a)
    (hpin : (s.heap a).IsPinned = false) (htab : s.pageTable (s.heap a).ID = some v) :
    ∃ s', Evict s pid (v, none) = some (s', none) ∧
      s'.pages i = none ∧ pageAt s' v = none ∧
      s'.freeList = s.freeList ++ [v] ∧
      s'.pageTable (s.heap a).ID = none ∧
      s'.diskManager = s.diskManager ++ [{ Page := s.heap a, Operation := "WRITE" }] := by
  have hdel := @DeletePage_unpinned
    { s with diskManager := s.diskManager ++ [{ Page := s.heap a, Operation := "WRITE" }] }
    (s.heap a).ID v i a htab hi ha hpin
  refine ⟨{ s with
            diskManager := s.diskManager ++ [{ Page := s.heap a, Operation := "WRITE" }]
            pageTable := Function.update s.pageTable (s.heap a).ID none
            pages := Function.update s.pages i none
            freeList := s.freeList ++ [v] }, ?_, ?_, ?_, rfl, ?_, rfl⟩
  · unfold Evict
    simp only [hi, ha, hdel]
  · exact Function.update_same _ _ _
  · unfold pageAt
    simp only [hi]
    have : Function.update s.pages i none i = none := Function.update_same _ _ _
    simp only [this]
  · exact Function.update_same _ _ _

/-! ## Pinning is exclusive -/

theorem FetchPage_pinned {s : BufferPoolManager} {id f : Int} {i : Fin MaxPoolSize} {a : Nat}
    (hf : s.pageTable id = some f) (hi : frameIndex f = some i) (ha : s.pages i = some a)
    (hpin : (s.heap a).IsPinned = true) :
    FetchPage s id = some (s, none, some "Page is pinned, cannot access") := by
  unfold FetchPage
  simp only [hf, hi, ha, hpin, if_true]

theorem FetchPage_unpinned {s : BufferPoolManager} {id f : Int} {i : Fin MaxPoolSize} {a : Nat}
    (hf : s.pageTable id = some f) (hi : frameIndex f = some i) (ha : s.pages i = some a)
    (hpin : (s.heap a).IsPinned = false) :
    FetchPage s id =
      some ({ s with
              heap := Function.update s.heap a { s.heap a with IsPinned := true }
              replacer := s.replacer ++ [f] }, some (s.heap a), none) := by
  unfold FetchPage
  simp only [hf, hi, ha, hpin, Pin]
  rfl

theorem Unpin_resident {s : BufferPoolManager} {id f : Int} {i : Fin MaxPoolSize} {a : Nat}
    (hf : s.pageTable id = some f) (hi : frameIndex f = some i) (ha : s.pages i = some a)
    (isDirty : Bool) :
    Unpin s id isDirty =
      some ({ s with
              heap := Function.update s.heap a
                { s.heap a with IsDirty := isDirty, IsPinned := false } }, none) := by
  unfold Unpin
  simp only [hf, hi, ha]

/-- A resident page that is pinned makes `FetchPage` fail without a change;
one that is not pinned makes it succeed and become pinned. -/
theorem FetchPage_resident_cases {s : BufferPoolManager} {id : Int} {p : Page}
    (hres : residentPage s id = some p) :
    (p.IsPinned = true ∧
      FetchPage s id = some (s, none, some "Page is pinned, cannot access")) ∨
    (p.IsPinned = false ∧
      ∃ s', FetchPage s id = some (s', some p, none) ∧
        residentPage s' id = some { p with IsPinned := true }) := by
  obtain ⟨f, i, a, hf, hi, ha, hp⟩ := residentPage_eq_some.1 hres
  subst hp
  cases hpin : (s.heap a).IsPinned with
  | true => exact Or.inl ⟨rfl, FetchPage_pinned hf hi ha hpin⟩
  | false =>
    refine Or.inr ⟨rfl, _, FetchPage_unpinned hf hi ha hpin, ?_⟩
    exact residentPage_update_heap hf hi ha { s.heap a with IsPinned := true }
      (s.replacer ++ [f])

/-- After `Unpin` the resident page is not pinned. -/
theorem Unpin_resident_result {s : BufferPoolManager} {id : Int} {p : Page}
    (hres : residentPage s id = some p) (d : Bool) :
    ∃ s', Unpin s id d = some (s', none) ∧
      residentPage s' id = some { p with IsDirty := d, IsPinned := false } := by
  obtain ⟨f, i, a, hf, hi, ha, hp⟩ := residentPage_eq_some.1 hres
  subst hp
  exact ⟨_, Unpin_resident hf hi ha d, residentPage_update_heap hf hi ha _ s.replacer⟩

/-- C18: a pin is exclusive.  For every pool state and resident PageID,
`FetchPage` returns an error exactly when the resident page is already pinned,
and an error return leaves the state unchanged and yields a nil page.  A
second `FetchPage` right after a first one fails, and after an `Unpin` in
between (with any dirty argument) `FetchPage` succeeds again. -/
theorem C18_pin_is_exclusive (s : BufferPoolManager) (id : Int) (p : Page)
    (hres : residentPage s id = some p) :
    ((∃ s' q e, FetchPage s id = some (s', q, some e)) ↔ p.IsPinned = true) ∧
    (∀ s' q e, FetchPage s id = some (s', q, some e) → s' = s ∧ q = none) ∧
    (∃ s1 q1 e1, FetchPage s id = some (s1, q1, e1) ∧
      (∃ e2, FetchPage s1 id = some (s1, none, some e2)) ∧
      ∀ d, ∃ s2, Unpin s1 id d = some (s2, none) ∧
        ∃ s3 q3, FetchPage s2 id = some (s3, some q3, none)) ∧
    (∀ d, ∃ s1, Unpin s id d = some (s1, none) ∧
      ∃ s2 q, FetchPage s1 id = some (s2, some q, none)) := by
  have afterUnpin : ∀ (t : BufferPoolManager) (r : Page), residentPage t id = some r →
      ∀ d, ∃ t1, Unpin t id d = some (t1, none) ∧
        ∃ t2 q, FetchPage t1 id = some (t2, some q, none) := by
    intro t r hr d
    obtain ⟨t1, hun, hres1⟩ := Unpin_resident_result hr d
    refine ⟨t1, hun, ?_⟩
    rcases FetchPage_resident_cases hres1 with ⟨hp, _⟩ | ⟨_, t2, hfetch, _⟩
    · cases hp
    · exact ⟨t2, _, hfetch⟩
  have pinnedFails : ∀ (t : BufferPoolManager) (r : Page), residentPage t id = some r →
      r.IsPinned = true → ∃ e2, FetchPage t id = some (t, none, some e2) := by
    intro t r hr hp
    rcases FetchPage_resident_cases hr with ⟨_, hfetch⟩ | ⟨hnp, _⟩
    · exact ⟨_, hfetch⟩
    · rw [hp] at hnp
      cases hnp
  refine ⟨⟨?_, ?_⟩, ?_, ?_, afterUnpin s p hres⟩
  · rintro ⟨s', q, e, h⟩
    rcases FetchPage_resident_cases hres with ⟨hp, _⟩ | ⟨_, t, hfetch, _⟩
    · exact hp
    · rw [hfetch] at h
      cases h
  · intro hp
    obtain ⟨e2, h⟩ := pinnedFails s p hres hp
    exact ⟨s, none, e2, h⟩
  · intro s' q e h
    rcases FetchPage_resident_cases hres with ⟨_, hfetch⟩ | ⟨_, t, hfetch, _⟩
    · rw [hfetch] at h
      cases h
      exact ⟨rfl, rfl⟩
    · rw [hfetch] at h
      cases h
  · rcases FetchPage_resident_cases hres with ⟨hp, hfetch⟩ | ⟨_, t, hfetch, hres1⟩
    · exact ⟨s, none, _, hfetch, pinnedFails s p hres hp, afterUnpin s p hres⟩
    · exact ⟨t, some p, none, hfetch, pinnedFails t _ hres1 rfl, afterUnpin t _ hres1⟩

/-- Witness for C18 at `pool1`, whose page 7 is resident. -/
theorem C18_pin_is_exclusive_witness :
    ((∃ s' q e, FetchPage pool1 7 = some (s', q, some e)) ↔
      ({ ID := 7, Data := [[1, 2]], IsDirty := false, IsPinned := false } : Page).IsPinned
        = true) ∧
    (∀ s' q e, FetchPage pool1 7 = some (s', q, some e) → s' = pool1 ∧ q = none) ∧
    (∃ s1 q1 e1, FetchPage pool1 7 = some (s1, q1, e1) ∧
      (∃ e2, FetchPage s1 7 = some (s1, none, some e2)) ∧
      ∀ d, ∃ s2, Unpin s1 7 d = some (s2, none) ∧
        ∃ s3 q3, FetchPage s2 7 = some (s3, some q3, none)) ∧
    (∀ d, ∃ s1, Unpin pool1 7 d = some (s1, none) ∧
      ∃ s2 q, FetchPage s1 7 = some (s2, some q, none)) :=
  C18_pin_is_exclusive pool1 7
    { ID := 7, Data := [[1, 2]], IsDirty := false, IsPinned := false } rfl

/-- C20: the page returned by a successful `FetchPage` on a resident page is
the resident page as it was before the call: `ID`, `Data`, `IsDirty` and
`IsPinned` are those of the resident page before pinning, so the copy has
`IsPinned = false` while the resident page has `IsPinned = true` afterwards. -/
theorem C20_FetchPage_returns_snapshot (s s' : BufferPoolManager) (id : Int) (p q : Page)
    (hres : residentPage s id = some p)
    (hfetch : FetchPage s id = some (s', some q, none)) :
    q = p ∧ q.ID = p.ID ∧ q.Data = p.Data ∧ q.IsDirty = p.IsDirty ∧
    q.IsPinned = p.IsPinned ∧ q.IsPinned = false ∧
    residentPage s' id = some { p with IsPinned := true } ∧
    (residentPage s' id).map Page.IsPinned = some true := by
  rcases FetchPage_resident_cases hres with ⟨_, h⟩ | ⟨hnp, t, h, hres1⟩
  · rw [h] at hfetch
    cases hfetch
  · rw [h] at hfetch
    cases hfetch
    refine ⟨rfl, rfl, rfl, rfl, rfl, hnp, hres1, ?_⟩
    rw [hres1]
    rfl

/-- Witness for C20: `FetchPage(7)` on `pool1` returns `page7`. -/
theorem C20_FetchPage_returns_snapshot_witness :
    page7 = page7 ∧ page7.ID = page7.ID ∧ page7.Data = page7.Data ∧
    page7.IsDirty = page7.IsDirty ∧
    page7.IsPinned = page7.IsPinned ∧ page7.IsPinned = false ∧
    residentPage pinnedPool 7 = some { page7 with IsPinned := true } ∧
    (residentPage pinnedPool 7).map Page.IsPinned = some true :=
  C20_FetchPage_returns_snapshot pool1 pinnedPool 7 page7 page7 rfl pinnedPool_step

/-! ## Insert followed by delete -/

/-- The head of the free list is an empty in-range frame when free list and
occupied frames partition the index range. -/
theorem head_frame_of_partition {s : BufferPoolManager}
    (hpart : ∀ i : Fin MaxPoolSize,
      (List.count (i.val : Int) s.freeList = 1 ∧ s.pages i = none) ∨
      ((i.val : Int) ∉ s.freeList ∧ ∃ a, s.pages i = some a))
    (hrange : ∀ x ∈ s.freeList, 0 ≤ x ∧ x < 50)
    {f : Int} {rest : List Int} (hfl : s.freeList = f :: rest) :
    ∃ i, frameIndex f = some i ∧ s.pages i = none := by
  have hmem : f ∈ s.freeList := by
    rw [hfl]
    exact List.mem_cons_self f rest
  have hr := hrange f hmem
  obtain ⟨i, hi⟩ := frameIndex_isSome hr.1 hr.2
  refine ⟨i, hi, ?_⟩
  rcases hpart i with ⟨_, hnone⟩ | ⟨hnot, _⟩
  · exact hnone
  · exfalso
    apply hnot
    rw [← frameIndex_eq_some hi]
    exact hmem

theorem partition_of_inv {s : BufferPoolManager} (h : Inv s) :
    (∀ i : Fin MaxPoolSize,
      (List.count (i.val : Int) s.freeList = 1 ∧ s.pages i = none) ∨
      ((i.val : Int) ∉ s.freeList ∧ ∃ a, s.pages i = some a)) := by
  intro i
  cases hp : s.pages i with
  | none => exact Or.inl ⟨h.free i hp, rfl⟩
  | some a => exact Or.inr ⟨(h.occ i a hp).1, a, rfl⟩

/-- C19: insert followed by delete rotates the free list.  In a pool state
where free list and occupied frames partition `[0, 50)` and the free list is
`f :: rest`, for a page object that is not pinned and whose ID is not in the
page table, `InsertPage` returns true and the following `DeletePage` of the
page's ID returns `(f, nil)`; afterwards the pages array and the page table
are as at the start and the free list is `rest ++ [f]`. -/
theorem C19_insert_delete_rotates_freeList (s : BufferPoolManager) (a : Nat) (f : Int)
    (rest : List Int)
    (hpart : ∀ i : Fin MaxPoolSize,
      (List.count (i.val : Int) s.freeList = 1 ∧ s.pages i = none) ∨
      ((i.val : Int) ∉ s.freeList ∧ ∃ b, s.pages i = some b))
    (hrange : ∀ x ∈ s.freeList, 0 ≤ x ∧ x < 50)
    (hfl : s.freeList = f :: rest)
    (hpin : (s.heap a).IsPinned = false)
    (hid : s.pageTable (s.heap a).ID = none) :
    ∃ s1 s2, InsertPage s (some a) = some (s1, true) ∧
      DeletePage s1 (s.heap a).ID = some (s2, f, none) ∧
      s2.pages = s.pages ∧ s2.pageTable = s.pageTable ∧
      s2.freeList = rest ++ [f] ∧ s2.heap = s.heap := by
  obtain ⟨i, hi, hnone⟩ := head_frame_of_partition hpart hrange hfl
  have hins := InsertPage_cons a hfl hi
  have hdel := @DeletePage_unpinned
    { s with
      freeList := rest
      pages := Function.update s.pages i (some a)
      pageTable := Function.update s.pageTable (s.heap a).ID (some f) }
    (s.heap a).ID f i a
    (Function.update_same _ _ _) hi (Function.update_same _ _ _) hpin
  refine ⟨_, _, hins, hdel, ?_, ?_, rfl, rfl⟩
  · show Function.update (Function.update s.pages i (some a)) i none = s.pages
    rw [Function.update_idem, ← hnone, Function.update_eq_self]
  · show Function.update (Function.update s.pageTable (s.heap a).ID (some f))
        (s.heap a).ID none = s.pageTable
    rw [Function.update_idem, ← hid, Function.update_eq_self]

/-- Witness for C19 on a fresh pool whose heap holds zero pages: the object at
address 0 is inserted and deleted again. -/
theorem C19_insert_delete_rotates_freeList_witness :
    ∃ s1 s2, InsertPage pool0 (some 0) = some (s1, true) ∧
      DeletePage s1 (pool0.heap 0).ID = some (s2, 0, none) ∧
      s2.pages = pool0.pages ∧ s2.pageTable = pool0.pageTable ∧
      s2.freeList = pool1.freeList ++ [0] ∧ s2.heap = pool0.heap :=
  C19_insert_delete_rotates_freeList pool0 0 0 pool1.freeList
    (partition_of_inv (inv_of_reachable reachable_pool0))
    (inv_of_reachable reachable_pool0).range rfl rfl rfl

end storage

namespace storage

/-! ## Big-endian header arithmetic -/

theorem Uint64_bigEndian64 (v : Nat) (hv : v < 18446744073709551616) (t : List Nat) :
    Uint64 (bigEndian64 v ++ t) = some v := by
  simp only [bigEndian64, List.cons_append, List.nil_append, Uint64]
  congr 1
  omega

theorem uint64OfOffset_of_nonneg (o : Int) (h1 : 0 ≤ o) (h2 : o < 9223372036854775808) :
    uint64OfOffset o = o.toNat := by
  unfold uint64OfOffset
  omega

theorem any_replicate_zero (k : Nat) : (List.replicate k 0).any (fun b => b != 0) = false := by
  induction k with
  | zero => rfl
  | succ k ih => simp [List.replicate_succ, ih]

theorem any_bigEndian64_eq_false {v k : Nat} (hv : v < 18446744073709551616)
    (h : (bigEndian64 v ++ List.replicate k 0).any (fun b => b != 0) = false) : v = 0 := by
  simp only [bigEndian64, List.cons_append, List.nil_append, List.any_cons, Bool.or_eq_false_iff,
    bne_eq_false_iff_eq] at h
  omega

theorem any_bigEndian64_zero (k : Nat) :
    (bigEndian64 0 ++ List.replicate k 0).any (fun b => b != 0) = false := by
  rw [List.any_append, any_replicate_zero]
  rfl

/-! ## Allocation and file writes -/

theorem makeBytes_of_held {L held n : Nat} (h : n ≤ held) :
    makeBytes L held (n : Int) = some (List.replicate n 0) := by
  unfold makeBytes
  have h0 : ¬ (n : Int) < 0 := by omega
  rw [if_neg h0, Int.toNat_ofNat, if_pos (Or.inl h)]

theorem makeBytes_of_limit {L held n : Nat} (h1 : n ≤ L) (h2 : n ≤ maxAlloc) :
    makeBytes L held (n : Int) = some (List.replicate n 0) := by
  unfold makeBytes
  have h0 : ¬ (n : Int) < 0 := by omega
  rw [if_neg h0, Int.toNat_ofNat, if_pos (Or.inr ⟨h1, h2⟩)]

/-- Above the allocator's limit, and above what the file holds, `make` stops
the program. -/
theorem makeBytes_none {L held : Nat} {n : Int} (h1 : (held : Int) < n)
    (h2 : (maxAlloc : Int) < n ∨ (L : Int) < n) : makeBytes L held n = none := by
  unfold makeBytes
  split
  · rfl
  · rename_i h0
    have hc : ¬ (n.toNat ≤ held ∨ (n.toNat ≤ L ∧ n.toNat ≤ maxAlloc)) := by
      rintro (h | ⟨h3, h4⟩)
      · omega
      · rcases h2 with h2 | h2
        · omega
        · omega
    rw [if_neg hc]

theorem fileWriteAt_eq {f : OsFile} {buf : List Nat} {off : Nat} (hne : buf ≠ [])
    (h : off + buf.length ≤ f.bytes.length ∨ off + buf.length ≤ maxOffset) :
    fileWriteAt f buf off =
      some { f with
             bytes := f.bytes.take off ++ List.replicate (off - f.bytes.length) 0 ++ buf ++
               f.bytes.drop (off + buf.length) } := by
  unfold fileWriteAt
  rw [if_neg hne, if_pos h]

/-! ## Header operations on the file -/

theorem length_header (u n : Nat) (h8 : 8 ≤ n) :
    (bigEndian64 u ++ List.replicate (n - 8) 0).length = n := by
  simp only [bigEndian64, List.length_append, List.length_cons, List.length_nil,
    List.length_replicate]
  omega

/-- The header that `updateHeader` writes: the offset in big-endian order, then
zeros up to the header size. -/
theorem updateHeader_eq (dm : DiskManager) (o : Int) (n : Nat) (hn : dm.HeaderSize = (n : Int))
    (h8 : 8 ≤ n) (hlen : n ≤ dm.File.bytes.length) :
    updateHeader dm o =
      some ({ dm with
              File := { dm.File with
                        bytes := bigEndian64 (uint64OfOffset o) ++ List.replicate (n - 8) 0 ++
                          dm.File.bytes.drop n } }, none) := by
  have htn : dm.HeaderSize.toNat = n := by omega
  have hmake : makeBytes dm.allocLimit dm.File.bytes.length dm.HeaderSize =
      some (List.replicate n 0) := by
    rw [hn]
    exact makeBytes_of_held hlen
  have hput : PutUint64 (List.replicate n 0) (uint64OfOffset o) =
      some (bigEndian64 (uint64OfOffset o) ++ List.replicate (n - 8) 0) := by
    unfold PutUint64
    have : ¬ (List.replicate n 0).length < 8 := by
      rw [List.length_replicate]
      omega
    rw [if_neg this, List.drop_replicate]
  have hread : fileReadAt dm.File (List.replicate n 0).length 0 =
      some (dm.File.bytes.take n) := by
    unfold fileReadAt
    rw [List.length_replicate]
    have : 0 + n ≤ dm.File.bytes.length := by omega
    rw [if_pos this, List.drop_zero]
  have hlenBE := length_header (uint64OfOffset o) n h8
  have hcopy : copyBytes ((dm.File.bytes.take n).take n)
      (bigEndian64 (uint64OfOffset o) ++ List.replicate (n - 8) 0) =
      bigEndian64 (uint64OfOffset o) ++ List.replicate (n - 8) 0 := by
    unfold copyBytes
    have h1 : ((dm.File.bytes.take n).take n).length = n := by
      simp only [List.length_take]
      omega
    rw [h1, hlenBE]
    have h2 : List.drop n (List.take n (List.take n dm.File.bytes)) = [] := by
      apply List.drop_eq_nil_of_le
      rw [h1]
    rw [h2, List.append_nil]
    apply List.take_of_length_le
    rw [hlenBE]
  have hne : bigEndian64 (uint64OfOffset o) ++ List.replicate (n - 8) 0 ≠ [] := by
    simp [bigEndian64]
  have hwrite := @fileWriteAt_eq dm.File
    (bigEndian64 (uint64OfOffset o) ++ List.replicate (n - 8) 0) 0 hne
    (Or.inl (by rw [hlenBE]; omega))
  simp only [List.take_zero, List.nil_append, Nat.zero_sub, List.replicate_zero, hlenBE,
    Nat.zero_add] at hwrite
  unfold updateHeader
  simp only [hmake, hput, hread, htn, hcopy, hwrite]

theorem readHeader_of_header (dm : DiskManager) (u n : Nat) (rest : List Nat)
    (hn : dm.HeaderSize = (n : Int)) (h8 : 8 ≤ n) (hu : u < 18446744073709551616)
    (hbytes : dm.File.bytes = bigEndian64 u ++ List.replicate (n - 8) 0 ++ rest) :
    readHeader dm = some (offsetOfUint64 u, none) := by
  have hlenBE := length_header u n h8
  have hlen : n ≤ dm.File.bytes.length := by
    rw [hbytes, List.length_append, hlenBE]
    omega
  have hmake : makeBytes dm.allocLimit dm.File.bytes.length dm.HeaderSize =
      some (List.replicate n 0) := by
    rw [hn]
    exact makeBytes_of_held hlen
  have hread : fileReadAt dm.File (List.replicate n 0).length 0 =
      some (bigEndian64 u ++ List.replicate (n - 8) 0) := by
    unfold fileReadAt
    rw [List.length_replicate]
    have : 0 + n ≤ dm.File.bytes.length := by omega
    rw [if_pos this, List.drop_zero, hbytes, List.take_left' hlenBE]
  unfold readHeader
  simp only [hmake, hread]
  have hlen8 : ¬ (bigEndian64 u ++ List.replicate (n - 8) 0).length < 8 := by
    rw [hlenBE]
    omega
  have htake : (bigEndian64 u ++ List.replicate (n - 8) 0).take 8 = bigEndian64 u := by
    apply List.take_left'
    rfl
  cases hany : (bigEndian64 u ++ List.replicate (n - 8) 0).any (fun b => b != 0) with
  | true =>
    simp only [if_true, if_neg hlen8, htake]
    have := Uint64_bigEndian64 u hu []
    rw [List.append_nil] at this
    simp only [this]
  | false =>
    have hu0 : u = 0 := any_bigEndian64_eq_false hu hany
    subst hu0
    simp [offsetOfUint64]

theorem readHeader_zero (dm : DiskManager) (h0 : 0 ≤ dm.HeaderSize)
    (hlen : dm.HeaderSize ≤ (dm.File.bytes.length : Int))
    (hz : ∀ b ∈ dm.File.bytes.take dm.HeaderSize.toNat, b = 0) :
    readHeader dm = some (0, none) := by
  have hn : dm.HeaderSize = ((dm.HeaderSize.toNat : Nat) : Int) := by omega
  have hlen2 : dm.HeaderSize.toNat ≤ dm.File.bytes.length := by omega
  have hmake : makeBytes dm.allocLimit dm.File.bytes.length dm.HeaderSize =
      some (List.replicate dm.HeaderSize.toNat 0) := by
    have := makeBytes_of_held (L := dm.allocLimit) hlen2
    rw [← hn] at this
    exact this
  have hread : fileReadAt dm.File (List.replicate dm.HeaderSize.toNat 0).length 0 =
      some (dm.File.bytes.take dm.HeaderSize.toNat) := by
    unfold fileReadAt
    rw [List.length_replicate]
    have : 0 + dm.HeaderSize.toNat ≤ dm.File.bytes.length := by omega
    rw [if_pos this, List.drop_zero]
  have hany : (dm.File.bytes.take dm.HeaderSize.toNat).any (fun b => b != 0) = false := by
    rw [List.any_eq_false]
    intro b hb
    simp [hz b hb]
  unfold readHeader
  simp only [hmake, hread, hany]
  rfl

/-! ## Directory page on the file -/

theorem firstZero_of_no_zero {b : List Nat} (hnz : ∀ x ∈ b, x ≠ 0) : firstZero b = none := by
  induction b with
  | nil => rfl
  | cons x xs ih =>
    have hx : x ≠ 0 := hnz x (List.mem_cons_self x xs)
    have hxs : ∀ y ∈ xs, y ≠ 0 := fun y hy => hnz y (List.mem_cons_of_mem x hy)
    simp only [firstZero, if_neg hx, ih hxs]
    rfl

theorem firstZero_append_zero {b : List Nat} (hnz : ∀ x ∈ b, x ≠ 0) (t : List Nat) :
    firstZero (b ++ 0 :: t) = some b.length := by
  induction b with
  | nil => rfl
  | cons x xs ih =>
    have hx : x ≠ 0 := hnz x (List.mem_cons_self x xs)
    have hxs : ∀ y ∈ xs, y ≠ 0 := fun y hy => hnz y (List.mem_cons_of_mem x hy)
    have hstep : firstZero (x :: (xs ++ 0 :: t)) =
        (firstZero (xs ++ 0 :: t)).map (fun k => k + 1) := by
      simp only [firstZero, if_neg hx]
    rw [List.cons_append, hstep, ih hxs]
    rfl

/-- The bytes that `LoadDirectoryPage` cuts out of a page made of `b` and zero
padding, when `b` has no zero byte and is shorter than the page. -/
theorem trim_padded {b : List Nat} (hnz : ∀ x ∈ b, x ≠ 0) (hb : b.length < PageSize) :
    (b ++ List.replicate (PageSize - b.length) 0).take
      ((firstZero (b ++ List.replicate (PageSize - b.length) 0)).getD 0) = b := by
  have hrep : List.replicate (PageSize - b.length) 0 =
      0 :: List.replicate (PageSize - b.length - 1) 0 := by
    have : PageSize - b.length = (PageSize - b.length - 1) + 1 := by omega
    rw [this, List.replicate_succ]
    simp
  rw [hrep, firstZero_append_zero hnz]
  simp

/-- The bytes that `LoadDirectoryPage` cuts out of a page without any zero
byte: none, because `endIndex` keeps its initial value 0. -/
theorem trim_full {b : List Nat} (hnz : ∀ x ∈ b, x ≠ 0) :
    b.take ((firstZero b).getD 0) = [] := by
  rw [firstZero_of_no_zero hnz]
  rfl

theorem WriteDirectoryDisk_eq (dm : DiskManager) (n : Nat) (b : List Nat)
    (hn : dm.HeaderSize = (n : Int)) (hb : b.length ≤ PageSize)
    (hoff : n + PageSize ≤ maxOffset) :
    WriteDirectoryDisk dm b =
      some ({ dm with
              File := { dm.File with
                        bytes := dm.File.bytes.take n ++
                          List.replicate (n - dm.File.bytes.length) 0 ++
                          (b ++ List.replicate (PageSize - b.length) 0) ++
                          dm.File.bytes.drop (n + PageSize) } },
            (n : Int), none) := by
  have hneg : ¬ dm.HeaderSize < 0 := by omega
  have htn : dm.HeaderSize.toNat = n := by omega
  have hnot : ¬ PageSize < b.length := by omega
  have hlen : (b ++ List.replicate (PageSize - b.length) 0).length = PageSize := by
    rw [List.length_append, List.length_replicate]
    omega
  have hne : b ++ List.replicate (PageSize - b.length) 0 ≠ [] := by
    intro hc
    rw [hc] at hlen
    cases hlen
  have hwrite := @fileWriteAt_eq dm.File (b ++ List.replicate (PageSize - b.length) 0) n hne
    (Or.inr (by rw [hlen]; exact hoff))
  rw [hlen] at hwrite
  unfold WriteDirectoryDisk
  simp only [if_neg hnot, if_neg hneg, htn, hwrite, hlen, ne_eq, not_true_eq_false, if_false]
  rw [hn]

theorem fileRead_page (f : OsFile) (n : Nat) (hdr page tail : List Nat)
    (hhdr : hdr.length = n) (hpage : page.length = PageSize)
    (hbytes : f.bytes = hdr ++ page ++ tail) :
    fileRead { f with pos := n } PageSize = some ({ f with pos := n + PageSize }, page) := by
  have havail : (f.bytes.drop n).take PageSize = page := by
    rw [hbytes, List.append_assoc, List.drop_left' hhdr, List.take_left' hpage]
  have hne : page ≠ [] := by
    intro hc
    rw [hc] at hpage
    cases hpage
  unfold fileRead
  simp only [havail, hpage, Nat.sub_self, List.replicate_zero, List.append_nil]
  rw [if_neg]
  rintro ⟨_, h⟩
  exact hne h

/-- What `LoadDirectoryPage` does on a file that has a full page behind a
header of `n` bytes: the decoder receives the page cut at its first zero byte
(or nothing when the page has no zero byte). -/
theorem LoadDirectoryPage_page
    (Unmarshal : List Nat → DirectoryPage → DirectoryPage × Option String)
    (dm : DiskManager) (n : Nat) (hdr page tail : List Nat)
    (hhdr : hdr.length = n) (hpage : page.length = PageSize)
    (hbytes : dm.File.bytes = hdr ++ page ++ tail) :
    LoadDirectoryPage Unmarshal dm (n : Int) =
      some ({ dm with
              File := { dm.File with pos := n + PageSize }
              DirectoryPage :=
                (Unmarshal (page.take ((firstZero page).getD 0)) dm.DirectoryPage).1 },
            (Unmarshal (page.take ((firstZero page).getD 0)) dm.DirectoryPage).2) := by
  have hseek : fileSeek dm.File (n : Int) = some { dm.File with pos := n } := by
    unfold fileSeek
    have : ¬ (n : Int) < 0 := by omega
    rw [if_neg this]
    simp
  have hread := fileRead_page dm.File n hdr page tail hhdr hpage hbytes
  unfold LoadDirectoryPage
  simp only [hseek, hread]
  rcases hU : Unmarshal (page.take ((firstZero page).getD 0)) dm.DirectoryPage with ⟨d, _ | e⟩
  · rfl
  · rfl

/-! ## Bootstrap -/

theorem length_padded (b : List Nat) (hb : b.length ≤ PageSize) :
    (b ++ List.replicate (PageSize - b.length) 0).length = PageSize := by
  rw [List.length_append, List.length_replicate]
  omega

theorem maxAlloc_add_PageSize_le {n : Nat} (h : n ≤ maxAlloc) : n + PageSize ≤ maxOffset := by
  unfold maxAlloc at h
  unfold PageSize maxOffset
  omega

/-- On an empty file a header size above what can be allocated stops the
program in `initializeHeader`. -/
theorem NewDiskManager_stops (L : Nat) (Encode : DirectoryPage → List Nat × Option String)
    (Unmarshal : List Nat → DirectoryPage → DirectoryPage × Option String)
    (H : Int) (h0 : 0 < H) (h : (maxAlloc : Int) < H ∨ (L : Int) < H) :
    NewDiskManager L Encode Unmarshal [] H = none := by
  have hlt : ((([] : List Nat).length : Nat) : Int) < H := by
    simp only [List.length_nil]
    omega
  have hmake : makeBytes L ([] : List Nat).length H = none :=
    makeBytes_none hlt h
  unfold NewDiskManager SetDefaultHeader initializeHeader
  simp only [hlt, if_true, hmake]

/-- The bootstrap of an empty file, step by step: zero header, empty directory
page written behind it, header updated. -/
theorem NewDiskManager_fresh (L : Nat) (Encode : DirectoryPage → List Nat × Option String)
    (Unmarshal : List Nat → DirectoryPage → DirectoryPage × Option String)
    (n : Nat) (b : List Nat) (h8 : 8 ≤ n) (hL : n ≤ L) (hM : n ≤ maxAlloc)
    (henc : Encode { Mapping := fun _ => none } = (b, none)) (hb : b.length ≤ PageSize) :
    NewDiskManager L Encode Unmarshal [] (n : Int) =
      some ({ File := { bytes := bigEndian64 n ++ List.replicate (n - 8) 0 ++
                          (b ++ List.replicate (PageSize - b.length) 0)
                        pos := n }
              DirectoryPage := { Mapping := fun _ => none }
              HeaderSize := (n : Int)
              allocLimit := L }, none) := by
  have hoff := maxAlloc_add_PageSize_le hM
  have hn63 : (n : Int) < 9223372036854775808 := by
    unfold maxAlloc at hM
    omega
  have hset : SetDefaultHeader
      { File := { bytes := [], pos := 0 }, DirectoryPage := { Mapping := fun _ => none },
        HeaderSize := (n : Int), allocLimit := L } =
      some ({ File := { bytes := List.replicate n 0, pos := n },
              DirectoryPage := { Mapping := fun _ => none }, HeaderSize := (n : Int),
              allocLimit := L }, none) := by
    have hlt : ((([] : List Nat).length : Nat) : Int) < (n : Int) := by
      simp only [List.length_nil]
      omega
    have hmake : makeBytes L ([] : List Nat).length (n : Int) = some (List.replicate n 0) :=
      makeBytes_of_limit hL hM
    have hne : List.replicate n 0 ≠ [] := by
      intro hc
      have := congrArg List.length hc
      rw [List.length_replicate] at this
      simp at this
      omega
    have hwrite := @fileWriteAt_eq { bytes := [], pos := 0 } (List.replicate n 0) 0 hne
      (Or.inr (by
        rw [List.length_replicate]
        have := hoff
        omega))
    simp only [List.take_nil, List.drop_nil, List.length_nil, Nat.sub_zero,
      List.replicate_zero, List.nil_append, List.append_nil] at hwrite
    unfold SetDefaultHeader initializeHeader
    simp only [hlt, if_true, hmake]
    unfold fileWrite
    simp only [hwrite, List.length_replicate, Nat.zero_add]
  have hread : readHeader
      { File := { bytes := List.replicate n 0, pos := n },
        DirectoryPage := { Mapping := fun _ => none }, HeaderSize := (n : Int),
        allocLimit := L } =
      some (0, none) := by
    apply readHeader_zero
    · show (0 : Int) ≤ (n : Int)
      omega
    · show (n : Int) ≤ ((List.replicate n 0).length : Int)
      rw [List.length_replicate]
    · intro x hx
      have hx2 := List.mem_of_mem_take hx
      exact (List.mem_replicate.1 hx2).2
  have hwrite := WriteDirectoryDisk_eq
    { File := { bytes := List.replicate n 0, pos := n },
      DirectoryPage := { Mapping := fun _ => none }, HeaderSize := (n : Int),
      allocLimit := L } n b rfl hb hoff
  have hbytes : (List.replicate n 0).take n ++
      List.replicate (n - (List.replicate n 0).length) 0 ++
      (b ++ List.replicate (PageSize - b.length) 0) ++
      (List.replicate n 0).drop (n + PageSize) =
      List.replicate n 0 ++ (b ++ List.replicate (PageSize - b.length) 0) := by
    have h1 : (List.replicate n 0).take n = List.replicate n (0 : Nat) := by
      apply List.take_of_length_le
      rw [List.length_replicate]
    have h2 : (List.replicate n (0 : Nat)).drop (n + PageSize) = [] := by
      apply List.drop_eq_nil_of_le
      rw [List.length_replicate]
      omega
    rw [h1, h2, List.length_replicate, Nat.sub_self, List.replicate_zero, List.append_nil,
      List.append_nil]
  simp only [hbytes] at hwrite
  have hupd := updateHeader_eq
    { File := { bytes := List.replicate n 0 ++ (b ++ List.replicate (PageSize - b.length) 0),
                pos := n },
      DirectoryPage := { Mapping := fun _ => none }, HeaderSize := (n : Int),
      allocLimit := L } (n : Int) n rfl h8
    (by
      show n ≤ (List.replicate n 0 ++ (b ++ List.replicate (PageSize - b.length) 0)).length
      rw [List.length_append, List.length_replicate]
      omega)
  have hdrop : (List.replicate n 0 ++ (b ++ List.replicate (PageSize - b.length) 0)).drop n =
      b ++ List.replicate (PageSize - b.length) 0 := by
    apply List.drop_left'
    rw [List.length_replicate]
  have hu : uint64OfOffset (n : Int) = n := by
    rw [uint64OfOffset_of_nonneg (n : Int) (by omega) hn63]
    simp
  simp only [hdrop, hu] at hupd
  unfold NewDiskManager
  simp only [hset]
  unfold loadOrCreateDirectoryPage
  simp only [hread, if_true]
  unfold createDirectoryPage
  simp only [henc, hwrite, hupd]

theorem take_bigEndian64 (u : Nat) (t : List Nat) : (bigEndian64 u ++ t).take 8 = bigEndian64 u :=
  rfl

/-- C14 (as stated, refuted): with header size 2^62, which is at least 8 and
an `int64`, and the JSON encoder of the empty directory, `NewDiskManager` on an
empty file does not return: `make([]byte, HeaderSize)` in `initializeHeader`
stops the program, on a machine of any size. -/
theorem C14_bootstrap_stops_for_large_header :
    (8 : Int) ≤ 4611686018427387904 ∧
    (4611686018427387904 : Int) < 9223372036854775808 ∧
    sampleEncode { Mapping := fun _ => none } = (emptyDirectoryJSON, none) ∧
    emptyDirectoryJSON.length ≤ PageSize ∧
    (∀ L : Nat, NewDiskManager L sampleEncode sampleUnmarshal [] 4611686018427387904 = none) ∧
    ¬ ∃ dm, NewDiskManager maxAlloc sampleEncode sampleUnmarshal [] 4611686018427387904 =
      some (dm, none) := by
  have hstop : ∀ L : Nat,
      NewDiskManager L sampleEncode sampleUnmarshal [] 4611686018427387904 = none := by
    intro L
    apply NewDiskManager_stops
    · decide
    · left
      decide
  refine ⟨by decide, by decide, rfl, by decide, hstop, ?_⟩
  rintro ⟨dm, h⟩
  rw [hstop maxAlloc] at h
  cases h

/-- C14 (amended): bootstrap of a fresh store.  For a header size `H` of at
least 8 that can be allocated (at most `allocLimit`, what the machine serves,
and at most `maxAlloc`) and an encoder that turns the empty directory page
into `b` of at most `PageSize` bytes, `NewDiskManager` on an empty file returns
nil; the file then has `H + PageSize` bytes: the header, whose first 8 bytes
are `H` in big-endian order and whose other bytes are zero, followed by `b`
padded with zeros to `PageSize` bytes; the directory page in memory has an
empty mapping, and `readHeader` gives `H`. -/
theorem C14_bootstrap_fresh_store (L : Nat)
    (Encode : DirectoryPage → List Nat × Option String)
    (Unmarshal : List Nat → DirectoryPage → DirectoryPage × Option String)
    (H : Int) (b : List Nat) (h8 : 8 ≤ H) (hL : H ≤ (L : Int)) (hM : H ≤ (maxAlloc : Int))
    (henc : Encode { Mapping := fun _ => none } = (b, none)) (hb : b.length ≤ PageSize) :
    ∃ dm, NewDiskManager L Encode Unmarshal [] H = some (dm, none) ∧
      dm.File.bytes.length = H.toNat + PageSize ∧
      dm.File.bytes = bigEndian64 H.toNat ++ List.replicate (H.toNat - 8) 0 ++
        (b ++ List.replicate (PageSize - b.length) 0) ∧
      dm.File.bytes.take 8 = bigEndian64 H.toNat ∧
      Uint64 (dm.File.bytes.take 8) = some H.toNat ∧
      dm.File.bytes.drop H.toNat = b ++ List.replicate (PageSize - b.length) 0 ∧
      dm.DirectoryPage.Mapping = (fun _ => none) ∧
      dm.HeaderSize = H ∧
      readHeader dm = some (H, none) := by
  obtain ⟨n, rfl⟩ := Int.eq_ofNat_of_zero_le (by omega : 0 ≤ H)
  have h8n : 8 ≤ n := by omega
  have hLn : n ≤ L := by omega
  have hMn : n ≤ maxAlloc := by omega
  have hlenH := length_header n n h8n
  have hlenP := length_padded b hb
  have hu : n < 18446744073709551616 := by
    unfold maxAlloc at hMn
    omega
  refine ⟨_, NewDiskManager_fresh L Encode Unmarshal n b h8n hLn hMn henc hb, ?_, ?_, ?_, ?_,
    ?_, rfl, rfl, ?_⟩
  · show (bigEndian64 n ++ List.replicate (n - 8) 0 ++
      (b ++ List.replicate (PageSize - b.length) 0)).length = _
    rw [List.length_append, hlenH, hlenP]
    simp
  · simp
  · show (bigEndian64 n ++ List.replicate (n - 8) 0 ++
      (b ++ List.replicate (PageSize - b.length) 0)).take 8 = _
    rw [List.append_assoc, take_bigEndian64]
    simp
  · show Uint64 ((bigEndian64 n ++ List.replicate (n - 8) 0 ++
      (b ++ List.replicate (PageSize - b.length) 0)).take 8) = _
    rw [List.append_assoc, take_bigEndian64]
    have := Uint64_bigEndian64 n hu []
    rw [List.append_nil] at this
    simpa using this
  · show (bigEndian64 n ++ List.replicate (n - 8) 0 ++
      (b ++ List.replicate (PageSize - b.length) 0)).drop (Int.toNat (n : Int)) = _
    rw [Int.toNat_ofNat]
    exact List.drop_left' hlenH
  · have hr := readHeader_of_header
      { File := { bytes := bigEndian64 n ++ List.replicate (n - 8) 0 ++
                    (b ++ List.replicate (PageSize - b.length) 0)
                  pos := n }
        DirectoryPage := { Mapping := fun _ => none }
        HeaderSize := (n : Int)
        allocLimit := L }
      n n (b ++ List.replicate (PageSize - b.length) 0) rfl h8n hu rfl
    rw [hr]
    unfold offsetOfUint64
    have : n < 9223372036854775808 := by
      unfold maxAlloc at hMn
      omega
    rw [if_pos this]

/-- Witness for the amended C14: header size 16, the JSON text of the empty
directory, and a machine that can allocate a megabyte. -/
theorem C14_bootstrap_fresh_store_witness :
    ∃ dm, NewDiskManager 1048576 sampleEncode sampleUnmarshal [] 16 = some (dm, none) ∧
      dm.File.bytes.length = (16 : Int).toNat + PageSize ∧
      dm.File.bytes = bigEndian64 (16 : Int).toNat ++
        List.replicate ((16 : Int).toNat - 8) 0 ++
        (emptyDirectoryJSON ++ List.replicate (PageSize - emptyDirectoryJSON.length) 0) ∧
      dm.File.bytes.take 8 = bigEndian64 (16 : Int).toNat ∧
      Uint64 (dm.File.bytes.take 8) = some (16 : Int).toNat ∧
      dm.File.bytes.drop (16 : Int).toNat =
        emptyDirectoryJSON ++ List.replicate (PageSize - emptyDirectoryJSON.length) 0 ∧
      dm.DirectoryPage.Mapping = (fun _ => none) ∧
      dm.HeaderSize = 16 ∧
      readHeader dm = some (16, none) :=
  C14_bootstrap_fresh_store 1048576 sampleEncode sampleUnmarshal 16 emptyDirectoryJSON
    (by decide) (by decide) (by decide) rfl (by decide)

/-! ## Directory page round trip -/

/-- Writing a directory of at most `PageSize` bytes and loading it again: the
page lands behind the header, and the decoder receives the page cut at its
first zero byte, or nothing when the page has no zero byte. -/
theorem write_then_load (dm : DiskManager) (n : Nat) (b : List Nat)
    (hn : dm.HeaderSize = (n : Int)) (hb : b.length ≤ PageSize)
    (hoff : n + PageSize ≤ maxOffset) :
    ∃ dm', WriteDirectoryDisk dm b = some (dm', (n : Int), none) ∧
      (dm'.File.bytes.drop n).take PageSize = b ++ List.replicate (PageSize - b.length) 0 ∧
      dm'.File.bytes.take n =
        dm.File.bytes.take n ++ List.replicate (n - dm.File.bytes.length) 0 ∧
      dm'.DirectoryPage = dm.DirectoryPage ∧
      ∀ Unmarshal : List Nat → DirectoryPage → DirectoryPage × Option String,
        LoadDirectoryPage Unmarshal dm' (n : Int) =
          some ({ dm' with
                  File := { dm'.File with pos := n + PageSize }
                  DirectoryPage :=
                    (Unmarshal
                      ((b ++ List.replicate (PageSize - b.length) 0).take
                        ((firstZero (b ++ List.replicate (PageSize - b.length) 0)).getD 0))
                      dm.DirectoryPage).1 },
                (Unmarshal
                  ((b ++ List.replicate (PageSize - b.length) 0).take
                    ((firstZero (b ++ List.replicate (PageSize - b.length) 0)).getD 0))
                  dm.DirectoryPage).2) := by
  have hlenP := length_padded b hb
  have hlenH : (dm.File.bytes.take n ++ List.replicate (n - dm.File.bytes.length) 0).length
      = n := by
    rw [List.length_append, List.length_take, List.length_replicate]
    omega
  refine ⟨_, WriteDirectoryDisk_eq dm n b hn hb hoff, ?_, ?_, rfl, ?_⟩
  · show ((dm.File.bytes.take n ++ List.replicate (n - dm.File.bytes.length) 0 ++
        (b ++ List.replicate (PageSize - b.length) 0) ++
        dm.File.bytes.drop (n + PageSize)).drop n).take PageSize = _
    rw [List.append_assoc, List.drop_left' hlenH, List.take_left' hlenP]
  · show (dm.File.bytes.take n ++ List.replicate (n - dm.File.bytes.length) 0 ++
        (b ++ List.replicate (PageSize - b.length) 0) ++
        dm.File.bytes.drop (n + PageSize)).take n = _
    rw [List.append_assoc, List.take_left' hlenH]
  · intro Unmarshal
    exact LoadDirectoryPage_page Unmarshal _ n
      (dm.File.bytes.take n ++ List.replicate (n - dm.File.bytes.length) 0)
      (b ++ List.replicate (PageSize - b.length) 0) (dm.File.bytes.drop (n + PageSize))
      hlenH hlenP rfl

/-- The round trip holds for a directory shorter than `PageSize` without a
zero byte: the decoder receives exactly `b`. -/
theorem directory_round_trip (dm : DiskManager) (n : Nat) (b : List Nat)
    (hn : dm.HeaderSize = (n : Int)) (hnz : ∀ x ∈ b, x ≠ 0) (hb : b.length < PageSize)
    (hoff : n + PageSize ≤ maxOffset) :
    ∃ dm', WriteDirectoryDisk dm b = some (dm', (n : Int), none) ∧
      (dm'.File.bytes.drop n).take PageSize = b ++ List.replicate (PageSize - b.length) 0 ∧
      ∀ Unmarshal : List Nat → DirectoryPage → DirectoryPage × Option String,
        LoadDirectoryPage Unmarshal dm' (n : Int) =
          some ({ dm' with
                  File := { dm'.File with pos := n + PageSize }
                  DirectoryPage := (Unmarshal b dm.DirectoryPage).1 },
                (Unmarshal b dm.DirectoryPage).2) := by
  obtain ⟨dm', hw, hpage, _, _, hload⟩ := write_then_load dm n b hn (Nat.le_of_lt hb) hoff
  refine ⟨dm', hw, hpage, ?_⟩
  intro Unmarshal
  have := hload Unmarshal
  rw [trim_padded hnz hb] at this
  exact this

/-- A directory of exactly `PageSize` bytes without a zero byte is written in
full, but the decoder receives no bytes at all. -/
theorem directory_full_page (dm : DiskManager) (n : Nat) (b : List Nat)
    (hn : dm.HeaderSize = (n : Int)) (hnz : ∀ x ∈ b, x ≠ 0) (hb : b.length = PageSize)
    (hoff : n + PageSize ≤ maxOffset) :
    ∃ dm', WriteDirectoryDisk dm b = some (dm', (n : Int), none) ∧
      (dm'.File.bytes.drop n).take PageSize = b ∧
      ∀ Unmarshal : List Nat → DirectoryPage → DirectoryPage × Option String,
        LoadDirectoryPage Unmarshal dm' (n : Int) =
          some ({ dm' with
                  File := { dm'.File with pos := n + PageSize }
                  DirectoryPage := (Unmarshal [] dm.DirectoryPage).1 },
                (Unmarshal [] dm.DirectoryPage).2) := by
  obtain ⟨dm', hw, hpage, _, _, hload⟩ := write_then_load dm n b hn (Nat.le_of_eq hb) hoff
  have hpad : b ++ List.replicate (PageSize - b.length) 0 = b := by
    rw [hb, Nat.sub_self, List.replicate_zero, List.append_nil]
  rw [hpad] at hpage
  refine ⟨dm', hw, hpage, ?_⟩
  intro Unmarshal
  have := hload Unmarshal
  rw [hpad, trim_full hnz] at this
  exact this

theorem fullDirectory_length : fullDirectory.length = PageSize := List.length_replicate _ _

theorem fullDirectory_no_zero : ∀ x ∈ fullDirectory, x ≠ 0 := by
  intro x hx
  have := (List.mem_replicate.1 hx).2
  omega

/-- C15 (fails on the code at the size bound): `fullDirectory` has exactly
`PageSize` bytes and no zero byte.  `WriteDirectoryDisk` on `sampleStore`
(header size 16) returns `(16, nil)` and the `PageSize` bytes behind the header
are `fullDirectory`, yet a following `LoadDirectoryPage(16)` gives the decoder
the empty byte string, whatever the decoder is; a decoder that rejects an
empty input, as `json.Unmarshal` does, makes the load fail. -/
theorem C15_full_page_directory_is_not_read_back :
    fullDirectory.length = PageSize ∧ (∀ x ∈ fullDirectory, x ≠ 0) ∧ fullDirectory ≠ [] ∧
    ∃ dm', WriteDirectoryDisk sampleStore fullDirectory = some (dm', 16, none) ∧
      (dm'.File.bytes.drop 16).take PageSize = fullDirectory ∧
      (∀ Unmarshal : List Nat → DirectoryPage → DirectoryPage × Option String,
        LoadDirectoryPage Unmarshal dm' 16 =
          some ({ dm' with
                  File := { dm'.File with pos := 16 + PageSize }
                  DirectoryPage := (Unmarshal [] sampleStore.DirectoryPage).1 },
                (Unmarshal [] sampleStore.DirectoryPage).2)) ∧
      (LoadDirectoryPage sampleUnmarshal dm' 16).map (fun r => r.2) =
        some (some "unexpected end of JSON input") := by
  obtain ⟨dm', hw, hpage, hload⟩ :=
    directory_full_page sampleStore 16 fullDirectory rfl fullDirectory_no_zero
      fullDirectory_length (by decide)
  refine ⟨fullDirectory_length, fullDirectory_no_zero, ?_, dm', hw, hpage, hload, ?_⟩
  · intro hc
    have := fullDirectory_length
    rw [hc] at this
    cases this
  · have := hload sampleUnmarshal
    simp only [Nat.cast_ofNat] at this
    rw [this]
    rfl

/-! ## Reopening a store -/

end storage

namespace buffer

/-- Prototype `FetchPage` on a resident page that is already pinned: returns a
nil page and an error and changes nothing. -/
theorem proto_FetchPage_pinned (s : BufferPoolManager) (id : Int) (p : Page)
    (hres : residentPage s id = some p) (hpin : p.IsPinned = true) :
    FetchPage s id = some (s, none, some "Page is pinned, cannot access") := by
  obtain ⟨f, i, a, hf, hi, ha, hp⟩ := proto_residentPage_eq_some.1 hres
  subst hp
  unfold FetchPage
  simp only [hf, hi, ha, hpin, if_true]

end buffer
